import Mathlib

/-!
Verification of the Casagrande preconsolidation-pressure algorithm
(`pysigmap/casagrande.py`, method `Casagrande.getSigmaP`).

The Python code is a single straight-line numeric method.  We embed it
shallowly over `ℝ`:

* `np.argmax` and `scipy.signal.find_peaks(x, distance=...)` are external
  library routines with a published pure algorithm; they are re-implemented
  here over any linear order (`argmaxIdx`, `localMaxima`, `findPeaks`),
  following scipy's `_local_maxima_1d` (plateau midpoints) and
  `_select_by_peak_distance` (priority order = stable argsort of peak
  heights, processed from highest to lowest).
* `scipy.interpolate.CubicSpline` is an external interpolator; the code
  only ever uses the returned object as a bundle of three evaluators
  (value, first and second derivative), so it enters the embedding as a
  `CubicSplineFn` parameter.  Concrete instantiations in this file use
  polynomials of degree ≤ 3, which the default not-a-knot cubic spline
  reproduces exactly when the data lie on them.
* `numpy.polynomial.polynomial.polyfit` is an external least-squares
  routine; it enters as an oracle parameter returning the 5 coefficients.
* Python floats are modelled as real numbers (the claims are about the
  exact formulas, not rounding).
-/

namespace PySigmaP

/-! ### `np.argmax` (first index attaining the maximum) -/

/-- Model of `np.argmax`: the first index of the list attaining the maximal
value.  Implemented via Mathlib's `List.argmax` over the index range, which
prefers the earliest element on ties, exactly like `np.argmax`. -/
def argmaxIdx {α : Type} [LinearOrder α] [Inhabited α] (l : List α) : ℕ :=
  ((List.range l.length).argmax (fun i => l.getD i default)).getD 0

theorem indexOf_range {n m : ℕ} (h : m < n) : (List.range n).indexOf m = m := by
  have h2 := List.indexOf_getElem (l := List.range n) (List.nodup_range n) m (by simpa using h)
  simpa using h2

theorem argmaxIdx_le_spec {α : Type} [LinearOrder α] [Inhabited α]
    (l : List α) (j : ℕ) (hj : j < l.length) :
    l.getD j default ≤ l.getD (argmaxIdx l) default := by
  rcases hm : (List.range l.length).argmax (fun i => l.getD i default) with _ | m
  · rw [List.argmax_eq_none] at hm
    have : l.length = 0 := by simpa using congrArg List.length hm
    omega
  · have hj' : j ∈ List.range l.length := List.mem_range.mpr hj
    have h := List.le_of_mem_argmax hj' hm
    unfold argmaxIdx
    rw [hm]
    exact h

theorem argmaxIdx_lt_length {α : Type} [LinearOrder α] [Inhabited α]
    (l : List α) (hne : l ≠ []) : argmaxIdx l < l.length := by
  rcases hm : (List.range l.length).argmax (fun i => l.getD i default) with _ | m
  · rw [List.argmax_eq_none] at hm
    have h0 : l.length = 0 := by simpa using congrArg List.length hm
    exact absurd (List.length_eq_zero.mp h0) hne
  · have h := List.mem_range.mp (List.argmax_mem hm)
    unfold argmaxIdx
    rw [hm]
    exact h

theorem argmaxIdx_const {α : Type} [LinearOrder α] [Inhabited α]
    (l : List α) (c : α) (hc : ∀ x ∈ l, x = c) : argmaxIdx l = 0 := by
  rcases hm : (List.range l.length).argmax (fun i => l.getD i default) with _ | m
  · unfold argmaxIdx
    rw [hm]
    rfl
  · have hml : m ∈ List.range l.length := List.argmax_mem hm
    have hmlt : m < l.length := List.mem_range.mp hml
    have hlen : 0 < l.length := by omega
    have h0 : (0 : ℕ) ∈ List.range l.length := List.mem_range.mpr hlen
    have hconst : ∀ i, i < l.length → l.getD i default = c := by
      intro i hi
      rw [List.getD_eq_getElem l default hi]
      exact hc _ (List.getElem_mem _)
    have hle : l.getD m default ≤ l.getD 0 default := by
      rw [hconst m hmlt, hconst 0 hlen]
    have hidx := List.index_of_argmax hm h0 hle
    rw [indexOf_range hmlt, indexOf_range hlen] at hidx
    unfold argmaxIdx
    rw [hm]
    simpa using hidx

/-! ### `scipy.signal.find_peaks`: local maxima with plateau handling

scipy's `_local_maxima_1d(x)` scans `i = 1 .. n-2`; when `x[i-1] < x[i]` it
advances `i_ahead` over the plateau of values equal to `x[i]` (stopping at
`n-1`); if the value after the plateau is strictly smaller, the midpoint
`(left_edge + right_edge) // 2` is recorded as a peak and the scan resumes
after the plateau. -/

/-- Inner while-loop of scipy's `_local_maxima_1d`: starting at `j`, advance
while `j < x.length - 1` and `x[j] = v`.  `fuel` bounds the iteration count;
all call sites pass enough fuel for the loop to reach its stop condition. -/
def findAhead {α : Type} [LinearOrder α] [Inhabited α] (x : List α) (v : α) :
    ℕ → ℕ → ℕ
  | 0, j => j
  | fuel + 1, j =>
    if j < x.length - 1 ∧ x.getD j default = v then findAhead x v fuel (j + 1) else j

/-- Outer loop of scipy's `_local_maxima_1d`, recorded peak indices are the
plateau midpoints.  `fuel` bounds the iteration count. -/
def lmAux {α : Type} [LinearOrder α] [Inhabited α] (x : List α) : ℕ → ℕ → List ℕ
  | 0, _ => []
  | fuel + 1, i =>
    if i < x.length - 1 then
      if x.getD (i - 1) default < x.getD i default then
        let ia := findAhead x (x.getD i default) x.length (i + 1)
        if x.getD ia default < x.getD i default then
          (i + (ia - 1)) / 2 :: lmAux x fuel (ia + 1)
        else
          lmAux x fuel (i + 1)
      else
        lmAux x fuel (i + 1)
    else []

/-- Model of scipy's `_local_maxima_1d`: the list of (plateau-midpoint) local
maxima indices of `x`, in increasing order. -/
def localMaxima {α : Type} [LinearOrder α] [Inhabited α] (x : List α) : List ℕ :=
  lmAux x x.length 1

theorem findAhead_stop {α : Type} [LinearOrder α] [Inhabited α]
    (x : List α) (v : α) (fuel j : ℕ)
    (h : ¬(j < x.length - 1 ∧ x.getD j default = v)) :
    findAhead x v fuel j = j := by
  cases fuel with
  | zero => rfl
  | succ fuel =>
    show (if j < x.length - 1 ∧ x.getD j default = v then findAhead x v fuel (j + 1) else j) = j
    rw [if_neg h]

theorem findAhead_step {α : Type} [LinearOrder α] [Inhabited α]
    (x : List α) (v : α) (fuel j : ℕ)
    (h : j < x.length - 1 ∧ x.getD j default = v) :
    findAhead x v (fuel + 1) j = findAhead x v fuel (j + 1) := by
  show (if j < x.length - 1 ∧ x.getD j default = v then findAhead x v fuel (j + 1) else j) =
    findAhead x v fuel (j + 1)
  rw [if_pos h]

/-- Full specification of `findAhead` given sufficient fuel: it returns the
first index at or after `j` where the advance condition fails, and the
condition holds at every index passed over. -/
theorem findAhead_spec {α : Type} [LinearOrder α] [Inhabited α]
    (x : List α) (v : α) :
    ∀ (fuel j : ℕ), x.length - 1 ≤ j + fuel →
      j ≤ findAhead x v fuel j ∧
      (∀ k, j ≤ k → k < findAhead x v fuel j →
        (k < x.length - 1 ∧ x.getD k default = v)) ∧
      ¬(findAhead x v fuel j < x.length - 1 ∧
        x.getD (findAhead x v fuel j) default = v) := by
  intro fuel
  induction fuel with
  | zero =>
    intro j hj
    refine ⟨le_refl _, ?_, ?_⟩
    · intro k hk hk'
      simp [findAhead] at hk'
      omega
    · simp [findAhead]
      intro h
      omega
  | succ fuel ih =>
    intro j hj
    by_cases h : j < x.length - 1 ∧ x.getD j default = v
    · rw [findAhead_step x v fuel j h]
      obtain ⟨h1, h2, h3⟩ := ih (j + 1) (by omega)
      refine ⟨by omega, ?_, h3⟩
      intro k hk hk'
      rcases Nat.eq_or_lt_of_le hk with rfl | hk2
      · exact h
      · exact h2 k hk2 hk'
    · rw [findAhead_stop x v _ j h]
      exact ⟨le_refl _, fun k hk hk' => by omega, h⟩

/-- If from index `i0` on no sample strictly exceeds its predecessor, the scan
records nothing. -/
theorem lmAux_no_rise {α : Type} [LinearOrder α] [Inhabited α] (x : List α) :
    ∀ (fuel i0 : ℕ), 1 ≤ i0 →
      (∀ i, i0 ≤ i → i + 1 < x.length →
        ¬ x.getD (i - 1) default < x.getD i default) →
      lmAux x fuel i0 = [] := by
  intro fuel
  induction fuel with
  | zero => intro i0 _ _; rfl
  | succ fuel ih =>
    intro i0 h1 hno
    show lmAux x (fuel + 1) i0 = []
    unfold lmAux
    by_cases hg : i0 < x.length - 1
    · have hnr := hno i0 (le_refl _) (by omega)
      simp only [hg, if_true, hnr, if_false]
      exact ih (i0 + 1) (by omega) (fun i hi => hno i (by omega))
    · simp [hg]

/-- A strictly increasing run up to `p`, an immediate strict fall after `p`,
and no further rise: the scan records exactly `[p]`. -/
theorem lmAux_strict_peak {α : Type} [LinearOrder α] [Inhabited α]
    (x : List α) (p : ℕ) (hp1 : 1 ≤ p) (hpn : p + 1 < x.length)
    (hinc : ∀ i, i + 1 ≤ p → x.getD i default < x.getD (i + 1) default)
    (hfall : x.getD (p + 1) default < x.getD p default)
    (hdec : ∀ i, p + 1 ≤ i → i + 1 < x.length →
      ¬ x.getD i default < x.getD (i + 1) default) :
    ∀ (fuel i0 : ℕ), 1 ≤ i0 → i0 ≤ p → x.length - i0 ≤ fuel →
      lmAux x fuel i0 = [p] := by
  intro fuel
  induction fuel with
  | zero => intro i0 h1 h2 h3; omega
  | succ fuel ih =>
    intro i0 h1 h2 h3
    show lmAux x (fuel + 1) i0 = [p]
    unfold lmAux
    have hg : i0 < x.length - 1 := by omega
    have hrise : x.getD (i0 - 1) default < x.getD i0 default := by
      have := hinc (i0 - 1) (by omega)
      have he : i0 - 1 + 1 = i0 := by omega
      rwa [he] at this
    rcases Nat.lt_or_ge i0 p with hlt | hge
    · -- still climbing: the plateau scan stops immediately and nothing is recorded
      have hne : ¬(i0 + 1 < x.length - 1 ∧
          x.getD (i0 + 1) default = x.getD i0 default) := by
        intro hcon
        exact absurd hcon.2.symm (ne_of_lt (hinc i0 (by omega)))
      have hstop : findAhead x (x.getD i0 default) x.length (i0 + 1) = i0 + 1 :=
        findAhead_stop x _ x.length (i0 + 1) hne
      simp only [hg, if_true, hrise, hstop]
      have hnotfall : ¬ x.getD (i0 + 1) default < x.getD i0 default :=
        not_lt_of_lt (hinc i0 (by omega))
      simp only [hnotfall, if_false]
      exact ih (i0 + 1) (by omega) (by omega) (by omega)
    · -- at the peak
      have hi0 : i0 = p := by omega
      subst hi0
      have hne : ¬(i0 + 1 < x.length - 1 ∧
          x.getD (i0 + 1) default = x.getD i0 default) := by
        intro hcon
        exact absurd hcon.2 (ne_of_lt hfall)
      have hstop : findAhead x (x.getD i0 default) x.length (i0 + 1) = i0 + 1 :=
        findAhead_stop x _ x.length (i0 + 1) hne
      simp only [hg, if_true, hrise, hstop]
      simp only [hfall, if_true]
      have hmid : (i0 + (i0 + 1 - 1)) / 2 = i0 := by omega
      rw [hmid]
      have htail : lmAux x fuel (i0 + 1 + 1) = [] := by
        apply lmAux_no_rise x fuel (i0 + 2) (by omega)
        intro i hi hilen
        have := hdec (i - 1) (by omega) (by omega)
        have he : i - 1 + 1 = i := by omega
        rwa [he] at this
      rw [htail]

/-- A strictly increasing run up to `p`, a two-sample plateau `x[p] = x[p+1]`
followed by a strict fall, and no further rise: the scan records exactly the
plateau midpoint `[p]`. -/
theorem lmAux_plateau2 {α : Type} [LinearOrder α] [Inhabited α]
    (x : List α) (p : ℕ) (hp1 : 1 ≤ p) (hpn : p + 2 < x.length)
    (hinc : ∀ i, i + 1 ≤ p → x.getD i default < x.getD (i + 1) default)
    (heq : x.getD (p + 1) default = x.getD p default)
    (hfall : x.getD (p + 2) default < x.getD p default)
    (hdec : ∀ i, p + 2 ≤ i → i + 1 < x.length →
      ¬ x.getD i default < x.getD (i + 1) default) :
    ∀ (fuel i0 : ℕ), 1 ≤ i0 → i0 ≤ p → x.length - i0 ≤ fuel →
      lmAux x fuel i0 = [p] := by
  intro fuel
  induction fuel with
  | zero => intro i0 h1 h2 h3; omega
  | succ fuel ih =>
    intro i0 h1 h2 h3
    show lmAux x (fuel + 1) i0 = [p]
    unfold lmAux
    have hg : i0 < x.length - 1 := by omega
    have hrise : x.getD (i0 - 1) default < x.getD i0 default := by
      have := hinc (i0 - 1) (by omega)
      have he : i0 - 1 + 1 = i0 := by omega
      rwa [he] at this
    rcases Nat.lt_or_ge i0 p with hlt | hge
    · have hne : ¬(i0 + 1 < x.length - 1 ∧
          x.getD (i0 + 1) default = x.getD i0 default) := by
        intro hcon
        exact absurd hcon.2.symm (ne_of_lt (hinc i0 (by omega)))
      have hstop : findAhead x (x.getD i0 default) x.length (i0 + 1) = i0 + 1 :=
        findAhead_stop x _ x.length (i0 + 1) hne
      simp only [hg, if_true, hrise, hstop]
      have hnotfall : ¬ x.getD (i0 + 1) default < x.getD i0 default :=
        not_lt_of_lt (hinc i0 (by omega))
      simp only [hnotfall, if_false]
      exact ih (i0 + 1) (by omega) (by omega) (by omega)
    · have hi0 : i0 = p := by omega
      subst hi0
      -- the plateau scan advances once (x[p+1] = x[p]) and then stops at p+2
      obtain ⟨f', hf'⟩ : ∃ f', x.length = f' + 1 := ⟨x.length - 1, by omega⟩
      have hstep : findAhead x (x.getD i0 default) x.length (i0 + 1) =
          findAhead x (x.getD i0 default) f' (i0 + 2) := by
        rw [hf']
        exact findAhead_step x _ f' (i0 + 1) ⟨by omega, heq⟩
      have hne : ¬(i0 + 2 < x.length - 1 ∧
          x.getD (i0 + 2) default = x.getD i0 default) := by
        intro hcon
        exact absurd hcon.2 (ne_of_lt hfall)
      have hstop : findAhead x (x.getD i0 default) f' (i0 + 2) = i0 + 2 :=
        findAhead_stop x _ _ (i0 + 2) hne
      simp only [hg, if_true, hrise, hstep, hstop]
      simp only [hfall, if_true]
      have hmid : (i0 + (i0 + 2 - 1)) / 2 = i0 := by omega
      rw [hmid]
      have htail : lmAux x fuel (i0 + 2 + 1) = [] := by
        apply lmAux_no_rise x fuel (i0 + 3) (by omega)
        intro i hi hilen
        have := hdec (i - 1) (by omega) (by omega)
        have he : i - 1 + 1 = i := by omega
        rwa [he] at this
      rw [htail]

/-- Every index recorded by the scan is the midpoint of a plateau that is
interior to the sample list and strictly dominates its two outer
neighbours. -/
theorem lmAux_mem_spec {α : Type} [LinearOrder α] [Inhabited α] (x : List α) :
    ∀ (fuel i0 : ℕ), 1 ≤ i0 → ∀ m ∈ lmAux x fuel i0,
      ∃ L R, i0 ≤ L ∧ L ≤ R ∧ R + 1 ≤ x.length - 1 ∧ m = (L + R) / 2 ∧
        x.getD (L - 1) default < x.getD L default ∧
        (∀ k, L ≤ k → k ≤ R → x.getD k default = x.getD L default) ∧
        x.getD (R + 1) default < x.getD L default := by
  intro fuel
  induction fuel with
  | zero => intro i0 _ m hm; simp [lmAux] at hm
  | succ fuel ih =>
    intro i0 h1 m hm
    unfold lmAux at hm
    by_cases hg : i0 < x.length - 1
    · simp only [hg, if_true] at hm
      by_cases hrise : x.getD (i0 - 1) default < x.getD i0 default
      · simp only [hrise, if_true] at hm
        obtain ⟨ha1, ha2, ha3⟩ :=
          findAhead_spec x (x.getD i0 default) x.length (i0 + 1) (by omega)
        by_cases hfall :
            x.getD (findAhead x (x.getD i0 default) x.length (i0 + 1)) default <
              x.getD i0 default
        · simp only [hfall, if_true] at hm
          rcases List.mem_cons.mp hm with hm1 | hm2
          · refine ⟨i0, findAhead x (x.getD i0 default) x.length (i0 + 1) - 1,
              le_refl _, by omega, ?_, by omega, hrise, ?_, ?_⟩
            · -- the index after the plateau is at most x.length - 1
              rcases Nat.eq_or_lt_of_le ha1 with he | hl
              · omega
              · have := ha2 (findAhead x (x.getD i0 default) x.length (i0 + 1) - 1)
                  (by omega) (by omega)
                omega
            · intro k hk1 hk2
              rcases Nat.eq_or_lt_of_le hk1 with he | hl
              · rw [← he]
              · exact (ha2 k hl (by omega)).2
            · have he : findAhead x (x.getD i0 default) x.length (i0 + 1) - 1 + 1 =
                  findAhead x (x.getD i0 default) x.length (i0 + 1) := by omega
              rw [he]
              exact hfall
          · obtain ⟨L, R, hL, hrest⟩ :=
              ih (findAhead x (x.getD i0 default) x.length (i0 + 1) + 1) (by omega) m hm2
            exact ⟨L, R, by omega, hrest⟩
        · simp only [hfall, if_false] at hm
          obtain ⟨L, R, hL, hrest⟩ := ih (i0 + 1) (by omega) m hm
          exact ⟨L, R, by omega, hrest⟩
      · simp only [hrise, if_false] at hm
        obtain ⟨L, R, hL, hrest⟩ := ih (i0 + 1) (by omega) m hm
        exact ⟨L, R, by omega, hrest⟩
    · simp only [hg, if_false] at hm
      simp at hm

/-- Structural description of the members of `localMaxima`. -/
theorem localMaxima_mem_spec {α : Type} [LinearOrder α] [Inhabited α]
    (x : List α) (m : ℕ) (hm : m ∈ localMaxima x) :
    ∃ L R, 1 ≤ L ∧ L ≤ R ∧ R + 1 ≤ x.length - 1 ∧ m = (L + R) / 2 ∧
      x.getD (L - 1) default < x.getD L default ∧
      (∀ k, L ≤ k → k ≤ R → x.getD k default = x.getD L default) ∧
      x.getD (R + 1) default < x.getD L default :=
  lmAux_mem_spec x x.length 1 (le_refl _) m hm

/-- Each local maximum index is interior: neither the first nor the last
sample index. -/
theorem localMaxima_interior {α : Type} [LinearOrder α] [Inhabited α]
    (x : List α) (m : ℕ) (hm : m ∈ localMaxima x) :
    0 < m ∧ m + 1 < x.length := by
  obtain ⟨L, R, hL1, hLR, hR, hmid, _, _, _⟩ := localMaxima_mem_spec x m hm
  omega

/-! ### `_select_by_peak_distance` and `find_peaks(x, distance=d)` -/

theorem getD_replicate {β : Type} (n : ℕ) (a : β) (i : ℕ) (d : β) :
    (List.replicate n a).getD i d = if i < n then a else d := by
  by_cases h : i < n
  · rw [List.getD_eq_getElem _ _ (by simpa using h)]
    simp [h]
  · rw [List.getD_eq_default]
    · simp [h]
    · simpa using h

/-- The priority order used by scipy's distance filter: numpy's stable
`argsort` of the peak heights orders indices by the lexicographic key
(height, index). -/
def argsortKey {α : Type} [LinearOrder α] [Inhabited α] (pr : List α) (i j : ℕ) : Prop :=
  pr.getD i default < pr.getD j default ∨
    (pr.getD i default = pr.getD j default ∧ i ≤ j)

instance argsortKeyDecidable {α : Type} [LinearOrder α] [Inhabited α]
    (pr : List α) (i j : ℕ) : Decidable (argsortKey pr i j) :=
  inferInstanceAs (Decidable (pr.getD i default < pr.getD j default ∨
    (pr.getD i default = pr.getD j default ∧ i ≤ j)))

/-- Stable ascending argsort of `pr` (numpy `argsort`), realised as an
insertion sort of the index range by the lexicographic key. -/
def argsortAsc {α : Type} [LinearOrder α] [Inhabited α] (pr : List α) : List ℕ :=
  List.insertionSort (argsortKey pr) (List.range pr.length)

/-- One step of scipy's `_select_by_peak_distance` sweep: if peak `j` is still
kept, discard every other peak whose position is within `d` of `peaks[j]`
(the original marks the contiguous window around `j`; for a sorted position
list the two descriptions coincide). -/
def keepStep (peaks : List ℕ) (d : ℕ) (keep : List Bool) (j : ℕ) : List Bool :=
  if keep.getD j false then
    (List.range keep.length).map (fun k =>
      if k = j then true
      else if Nat.dist (peaks.getD j 0) (peaks.getD k 0) < d then false
      else keep.getD k false)
  else keep

/-- scipy's `_select_by_peak_distance`: peaks are processed from highest
priority (ties: larger index first, matching the reversed stable argsort) to
lowest; each still-kept peak discards all others within `d`. -/
def selectByPeakDistance {α : Type} [LinearOrder α] [Inhabited α]
    (peaks : List ℕ) (pr : List α) (d : ℕ) : List Bool :=
  ((argsortAsc pr).reverse).foldl (keepStep peaks d) (List.replicate peaks.length true)

/-- Model of `scipy.signal.find_peaks(x, distance=d)[0]`: the positions of
the local maxima of `x` that survive the distance filter, in increasing
order.  (`find_peaks` is called with no other filtering options in the
source.) -/
def findPeaks {α : Type} [LinearOrder α] [Inhabited α] (l : List α) (d : ℕ) : List ℕ :=
  let peaks := localMaxima l
  let mask := selectByPeakDistance peaks (peaks.map (fun i => l.getD i default)) d
  ((peaks.zip mask).filter (fun pm => pm.2)).map (fun pm => pm.1)

theorem findPeaks_of_no_maxima {α : Type} [LinearOrder α] [Inhabited α]
    (l : List α) (d : ℕ) (h : localMaxima l = []) : findPeaks l d = [] := by
  unfold findPeaks
  rw [h]
  rfl

theorem insertionSort_singleton {α : Type} (r : α → α → Prop) [DecidableRel r] (a : α) :
    List.insertionSort r [a] = [a] := rfl

theorem findPeaks_of_single_maximum {α : Type} [LinearOrder α] [Inhabited α]
    (l : List α) (d : ℕ) (p : ℕ) (h : localMaxima l = [p]) : findPeaks l d = [p] := by
  unfold findPeaks
  rw [h]
  show ((([p].zip (selectByPeakDistance [p] ([p].map (fun i => l.getD i default)) d))).filter
    (fun pm => pm.2)).map (fun pm => pm.1) = [p]
  have hsel : selectByPeakDistance [p] ([p].map (fun i => l.getD i default)) d = [true] := by
    unfold selectByPeakDistance argsortAsc
    simp only [List.length_map, List.length_cons, List.length_nil, List.range_succ,
      List.range_zero, List.nil_append, insertionSort_singleton, List.reverse_singleton,
      List.replicate_succ, List.replicate_zero, List.foldl_cons, List.foldl_nil]
    unfold keepStep
    simp [List.range_succ]
  rw [hsel]
  rfl

/-- Indicator mask of length `m`: `true` exactly at position `j0`. -/
def oneHot (m j0 : ℕ) : List Bool :=
  (List.range m).map (fun k => if k = j0 then true else false)

theorem oneHot_getD (m j0 k : ℕ) :
    (oneHot m j0).getD k false =
      if k < m then (if k = j0 then true else false) else false := by
  by_cases h : k < m
  · rw [List.getD_eq_getElem _ _ (by simpa [oneHot] using h)]
    simp [oneHot, h]
  · rw [List.getD_eq_default _ _ (by simpa [oneHot] using h)]
    simp [h]

theorem keepStep_replicate (peaks : List ℕ) (d j0 : ℕ) (hj0 : j0 < peaks.length)
    (hdist : ∀ k, k < peaks.length → k ≠ j0 →
      Nat.dist (peaks.getD j0 0) (peaks.getD k 0) < d) :
    keepStep peaks d (List.replicate peaks.length true) j0 = oneHot peaks.length j0 := by
  unfold keepStep
  rw [getD_replicate, if_pos hj0]
  rw [if_pos rfl]
  rw [List.length_replicate]
  unfold oneHot
  apply List.map_congr_left
  intro k hk
  have hkm : k < peaks.length := List.mem_range.mp hk
  by_cases hkj : k = j0
  · simp [hkj]
  · rw [if_neg hkj, if_neg hkj, if_pos (hdist k hkm hkj)]

theorem keepStep_oneHot_ne (peaks : List ℕ) (d m j0 j : ℕ) (hne : j ≠ j0) :
    keepStep peaks d (oneHot m j0) j = oneHot m j0 := by
  unfold keepStep
  rw [oneHot_getD]
  by_cases h : j < m
  · rw [if_pos h, if_neg hne]
    rfl
  · rw [if_neg h]
    rfl

theorem foldl_keepStep_oneHot (peaks : List ℕ) (d m j0 : ℕ) :
    ∀ (rest : List ℕ), (∀ j ∈ rest, j ≠ j0) →
      rest.foldl (keepStep peaks d) (oneHot m j0) = oneHot m j0 := by
  intro rest
  induction rest with
  | nil => intro _; rfl
  | cons a rest ih =>
    intro h
    rw [List.foldl_cons, keepStep_oneHot_ne peaks d m j0 a (h a (List.mem_cons_self a rest))]
    exact ih (fun j hj => h j (List.mem_cons_of_mem a hj))

theorem filter_zip_allFalse {β : Type} :
    ∀ (ps : List β) (msk : List Bool), (∀ b ∈ msk, b = false) →
      (ps.zip msk).filter (fun pm => pm.2) = [] := by
  intro ps
  induction ps with
  | nil => intro msk _; simp
  | cons p ps ih =>
    intro msk hmsk
    cases msk with
    | nil => simp
    | cons b msk =>
      have hb : b = false := hmsk b (List.mem_cons_self b msk)
      subst hb
      simp only [List.zip_cons_cons, List.filter_cons]
      simp only [Bool.false_eq_true, if_false]
      exact ih msk (fun b hb => hmsk b (List.mem_cons_of_mem _ hb))

theorem zip_oneHot_extract {β : Type} [Inhabited β] :
    ∀ (ps : List β) (j0 : ℕ), j0 < ps.length →
      (((ps.zip (oneHot ps.length j0)).filter (fun pm => pm.2)).map (fun pm => pm.1))
        = [ps.getD j0 default] := by
  intro ps
  induction ps with
  | nil => intro j0 h; simp at h
  | cons p ps ih =>
    intro j0 hj0
    have hrange : oneHot (p :: ps).length j0 =
        (if 0 = j0 then true else false) ::
          (List.range ps.length).map (fun k => if k + 1 = j0 then true else false) := by
      unfold oneHot
      rw [List.length_cons, List.range_succ_eq_map, List.map_cons, List.map_map]
      rfl
    cases j0 with
    | zero =>
      rw [hrange]
      have hallfalse : (ps.zip ((List.range ps.length).map
          (fun k => if k + 1 = 0 then true else false))).filter (fun pm => pm.2) = [] := by
        apply filter_zip_allFalse
        intro b hb
        obtain ⟨k, _, hk⟩ := List.mem_map.mp hb
        rw [if_neg (by omega)] at hk
        exact hk.symm
      simp [List.zip_cons_cons, List.filter_cons, hallfalse]
      intro a ha
      have hmem := (List.of_mem_zip ha).2
      simp [List.mem_replicate] at hmem
    | succ j =>
      rw [hrange]
      simp only [List.zip_cons_cons, List.filter_cons]
      have hne : ¬ (0 = j + 1) := by omega
      rw [if_neg hne]
      have hshift : (List.range ps.length).map (fun k => if k + 1 = j + 1 then true else false)
          = oneHot ps.length j := by
        unfold oneHot
        apply List.map_congr_left
        intro k _
        by_cases hkj : k = j
        · simp [hkj]
        · rw [if_neg (by omega), if_neg hkj]
      rw [hshift]
      simp only [Bool.false_eq_true, if_false]
      rw [ih j (by simpa using Nat.lt_of_succ_lt_succ hj0)]
      rfl

/-- When the minimum peak separation is at least the sample count (the
source calls `find_peaks(curvature, distance=500)` on 100 samples), the
filter keeps at most one local maximum, and the kept one has the greatest
sample value among all local maxima. -/
theorem findPeaks_max_distance {α : Type} [LinearOrder α] [Inhabited α]
    (l : List α) (d : ℕ) (hd : l.length ≤ d) :
    findPeaks l d = [] ∨
      ∃ i, findPeaks l d = [i] ∧ i ∈ localMaxima l ∧
        ∀ j ∈ localMaxima l, l.getD j default ≤ l.getD i default := by
  by_cases hpk : localMaxima l = []
  · exact Or.inl (findPeaks_of_no_maxima l d hpk)
  right
  have hm : 0 < (localMaxima l).length := List.length_pos.mpr hpk
  -- abbreviations
  have hprlen : ((localMaxima l).map (fun i => l.getD i default)).length =
      (localMaxima l).length := List.length_map _ _
  haveI htotal : IsTotal ℕ (argsortKey ((localMaxima l).map (fun i => l.getD i default))) := by
    constructor
    intro i j
    rcases lt_trichotomy
        (((localMaxima l).map (fun i => l.getD i default)).getD i default)
        (((localMaxima l).map (fun i => l.getD i default)).getD j default) with h | h | h
    · exact Or.inl (Or.inl h)
    · rcases le_total i j with hij | hij
      · exact Or.inl (Or.inr ⟨h, hij⟩)
      · exact Or.inr (Or.inr ⟨h.symm, hij⟩)
    · exact Or.inr (Or.inl h)
  haveI htrans : IsTrans ℕ (argsortKey ((localMaxima l).map (fun i => l.getD i default))) := by
    constructor
    intro i j k hij hjk
    rcases hij with h1 | ⟨h1, h1'⟩ <;> rcases hjk with h2 | ⟨h2, h2'⟩
    · exact Or.inl (h1.trans h2)
    · exact Or.inl (h2 ▸ h1)
    · exact Or.inl (h1 ▸ h2)
    · exact Or.inr ⟨h1.trans h2, h1'.trans h2'⟩
  have hsort := List.sorted_insertionSort
    (argsortKey ((localMaxima l).map (fun i => l.getD i default)))
    (List.range ((localMaxima l).map (fun i => l.getD i default)).length)
  have hperm := List.perm_insertionSort
    (argsortKey ((localMaxima l).map (fun i => l.getD i default)))
    (List.range ((localMaxima l).map (fun i => l.getD i default)).length)
  -- the processing order, highest priority first
  have hlen : (argsortAsc ((localMaxima l).map (fun i => l.getD i default))).reverse.length =
      (localMaxima l).length := by
    rw [List.length_reverse]
    unfold argsortAsc
    rw [hperm.length_eq, List.length_range, hprlen]
  obtain ⟨j0, rest, horder⟩ :
      ∃ j0 rest, (argsortAsc ((localMaxima l).map (fun i => l.getD i default))).reverse =
        j0 :: rest := by
    cases ho : (argsortAsc ((localMaxima l).map (fun i => l.getD i default))).reverse with
    | nil => rw [ho] at hlen; simp at hlen; omega
    | cons a b => exact ⟨a, b, rfl⟩
  have hmemiff : ∀ j, j ∈ (argsortAsc ((localMaxima l).map
      (fun i => l.getD i default))).reverse ↔ j < (localMaxima l).length := by
    intro j
    rw [List.mem_reverse]
    unfold argsortAsc
    rw [hperm.mem_iff, List.mem_range, hprlen]
  have hj0m : j0 < (localMaxima l).length := by
    rw [← hmemiff j0, horder]
    exact List.mem_cons_self j0 rest
  have hnodup : (j0 :: rest).Nodup := by
    rw [← horder, List.nodup_reverse]
    unfold argsortAsc
    exact hperm.nodup_iff.mpr (List.nodup_range _)
  have hrestne : ∀ j ∈ rest, j ≠ j0 := by
    intro j hj heq
    exact (List.nodup_cons.mp hnodup).1 (heq ▸ hj)
  have hdomrest : ∀ j ∈ rest,
      argsortKey ((localMaxima l).map (fun i => l.getD i default)) j j0 := by
    have hpw : (j0 :: rest).Pairwise
        (fun a b => argsortKey ((localMaxima l).map (fun i => l.getD i default)) b a) := by
      rw [← horder, List.pairwise_reverse]
      exact hsort
    exact (List.pairwise_cons.mp hpw).1
  -- every other index is dominated by j0
  have hdom : ∀ k, k < (localMaxima l).length →
      argsortKey ((localMaxima l).map (fun i => l.getD i default)) k j0 := by
    intro k hk
    have hkmem : k ∈ j0 :: rest := horder ▸ (hmemiff k).mpr hk
    rcases List.mem_cons.mp hkmem with rfl | hkr
    · exact Or.inr ⟨rfl, le_refl _⟩
    · exact hdomrest k hkr
  -- the peak positions are interior sample indices, so all pairwise distances are < d
  have hinterior : ∀ k, k < (localMaxima l).length →
      0 < (localMaxima l).getD k 0 ∧ (localMaxima l).getD k 0 + 1 < l.length := by
    intro k hk
    apply localMaxima_interior
    rw [List.getD_eq_getElem _ _ hk]
    exact List.getElem_mem _
  have hdist : ∀ k, k < (localMaxima l).length → k ≠ j0 →
      Nat.dist ((localMaxima l).getD j0 0) ((localMaxima l).getD k 0) < d := by
    intro k hk _
    have h1 := hinterior j0 hj0m
    have h2 := hinterior k hk
    have : Nat.dist ((localMaxima l).getD j0 0) ((localMaxima l).getD k 0) < l.length := by
      unfold Nat.dist
      omega
    omega
  -- the mask is the indicator of j0
  have hmask : selectByPeakDistance (localMaxima l)
      ((localMaxima l).map (fun i => l.getD i default)) d =
      oneHot (localMaxima l).length j0 := by
    unfold selectByPeakDistance
    rw [horder, List.foldl_cons, keepStep_replicate _ _ _ hj0m hdist]
    exact foldl_keepStep_oneHot _ _ _ _ rest hrestne
  have hresult : findPeaks l d = [(localMaxima l).getD j0 0] := by
    show (((localMaxima l).zip (selectByPeakDistance (localMaxima l)
        ((localMaxima l).map (fun i => l.getD i default)) d)).filter
        (fun pm => pm.2)).map (fun pm => pm.1) = [(localMaxima l).getD j0 0]
    rw [hmask]
    exact zip_oneHot_extract (localMaxima l) j0 hj0m
  refine ⟨(localMaxima l).getD j0 0, hresult, ?_, ?_⟩
  · rw [List.getD_eq_getElem _ _ hj0m]
    exact List.getElem_mem _
  · intro j hj
    obtain ⟨⟨kj, hkj⟩, hkjeq⟩ := List.mem_iff_get.mp hj
    have hkey := hdom kj hkj
    have hprk : ((localMaxima l).map (fun i => l.getD i default)).getD kj default =
        l.getD j default := by
      rw [List.getD_eq_getElem _ _ (by simpa using hkj)]
      rw [List.getElem_map]
      rw [← hkjeq]
      rfl
    have hprj0 : ((localMaxima l).map (fun i => l.getD i default)).getD j0 default =
        l.getD ((localMaxima l).getD j0 0) default := by
      rw [List.getD_eq_getElem _ _ (by simpa using hj0m)]
      rw [List.getElem_map]
      rw [List.getD_eq_getElem _ _ hj0m]
    rcases hkey with h | ⟨h, _⟩
    · rw [hprk, hprj0] at h
      exact le_of_lt h
    · rw [hprk, hprj0] at h
      exact le_of_eq h

/-! ### Bisector slope (line 158 of the source) -/

/-- `np.tan(0.5*np.arctan(m))`: the slope of the bisector of the angle
between the horizontal and the tangent of slope `m` (line 158). -/
noncomputable def slopeBisectOf (m : ℝ) : ℝ := Real.tan (0.5 * Real.arctan m)

theorem slopeBisectOf_zero : slopeBisectOf 0 = 0 := by
  unfold slopeBisectOf
  rw [Real.arctan_zero, mul_zero, Real.tan_zero]

/-- Closed form of the half-angle slope: `m / (1 + √(1 + m²))`. -/
theorem slopeBisectOf_eq (m : ℝ) :
    slopeBisectOf m = m / (1 + Real.sqrt (1 + m ^ 2)) := by
  have hs0 : (0:ℝ) ≤ 1 + m ^ 2 := by positivity
  have hs1 : 1 ≤ Real.sqrt (1 + m ^ 2) := by
    nlinarith [Real.sq_sqrt hs0, Real.sqrt_nonneg (1 + m ^ 2),
      sq_nonneg (Real.sqrt (1 + m ^ 2) - 1)]
  have hssq : Real.sqrt (1 + m ^ 2) ^ 2 = 1 + m ^ 2 := Real.sq_sqrt hs0
  have hden : (0:ℝ) < 1 + Real.sqrt (1 + m ^ 2) := by linarith
  have hdenne : (1:ℝ) + Real.sqrt (1 + m ^ 2) ≠ 0 := ne_of_gt hden
  have habs : |m| < 1 + Real.sqrt (1 + m ^ 2) := by
    have h1 : |m| = Real.sqrt (m ^ 2) := (Real.sqrt_sq_eq_abs m).symm
    have h2 : Real.sqrt (m ^ 2) ≤ Real.sqrt (1 + m ^ 2) :=
      Real.sqrt_le_sqrt (by nlinarith)
    linarith
  have ht1 : |m / (1 + Real.sqrt (1 + m ^ 2))| < 1 := by
    rw [abs_div, abs_of_pos hden, div_lt_one hden]
    exact habs
  have harcbounds : -(Real.pi / 4) < Real.arctan (m / (1 + Real.sqrt (1 + m ^ 2))) ∧
      Real.arctan (m / (1 + Real.sqrt (1 + m ^ 2))) < Real.pi / 4 := by
    obtain ⟨hlo, hhi⟩ := abs_lt.mp ht1
    constructor
    · have h := Real.arctan_strictMono hlo
      rwa [Real.arctan_neg, Real.arctan_one] at h
    · have h := Real.arctan_strictMono hhi
      rwa [Real.arctan_one] at h
  have hsub : (1:ℝ) - (m / (1 + Real.sqrt (1 + m ^ 2))) ^ 2 =
      2 / (1 + Real.sqrt (1 + m ^ 2)) := by
    field_simp
    nlinarith [hssq]
  have htan2 : Real.tan (2 * Real.arctan (m / (1 + Real.sqrt (1 + m ^ 2)))) = m := by
    rw [Real.tan_two_mul, Real.tan_arctan, hsub]
    field_simp
  have harcm : Real.arctan m = 2 * Real.arctan (m / (1 + Real.sqrt (1 + m ^ 2))) := by
    conv_lhs => rw [← htan2]
    have hpi := Real.pi_pos
    exact Real.arctan_tan (by linarith [harcbounds.1]) (by linarith [harcbounds.2])
  unfold slopeBisectOf
  rw [harcm,
    show (0.5:ℝ) * (2 * Real.arctan (m / (1 + Real.sqrt (1 + m ^ 2)))) =
      Real.arctan (m / (1 + Real.sqrt (1 + m ^ 2))) by ring,
    Real.tan_arctan]

/-- Value used by the concrete runs: a tangent slope of `-4/3` gives a
bisector slope of exactly `-1/2`. -/
theorem slopeBisectOf_neg_four_thirds : slopeBisectOf (-(4/3)) = -(1/2) := by
  rw [slopeBisectOf_eq]
  have h1 : (1:ℝ) + (-(4/3)) ^ 2 = (5/3) ^ 2 := by norm_num
  rw [h1, Real.sqrt_sq (by norm_num : (0:ℝ) ≤ 5/3)]
  norm_num

/-! ### Curvature comparison helper -/

/-- `A / (1 + q)^(3/2)` is strictly antitone in `q ≥ 0` for `A > 0`; this is
how the concrete curvature runs compare adjacent samples. -/
theorem curvVal_lt_curvVal (A p q : ℝ) (hA : 0 < A) (hp : 0 ≤ p) (hpq : p < q) :
    A / (1 + q) ^ ((3:ℝ)/2) < A / (1 + p) ^ ((3:ℝ)/2) := by
  have h1 : (0:ℝ) < 1 + p := by linarith
  have h2 : (1 + p) ^ ((3:ℝ)/2) < (1 + q) ^ ((3:ℝ)/2) :=
    Real.rpow_lt_rpow (by linarith) (by linarith) (by norm_num)
  exact div_lt_div_of_pos_left hA (Real.rpow_pos_of_pos h1 _) h2

/-! ### Embedding of the data model and of `Casagrande.getSigmaP` -/

/-- The fields of the `Data` collaborator object that `getSigmaP` reads:
the cleaned compressibility curve (`data.cleaned`), the virgin-line slope
`idxCc` and intercept `idxCcInt`, and the in-situ stress `sigmaV`.  (The
raw curve and the remaining fields are only consumed by the plot.) -/
structure Data where
  cleanedStress : List ℝ
  cleanedE : List ℝ
  idxCc : ℝ
  idxCcInt : ℝ
  sigmaV : ℝ

/-- The interface through which the source uses the object returned by
`scipy.interpolate.CubicSpline(x=log10(stress[1:]), y=e[1:])` (line 111):
evaluation `cs(x)`, first derivative `cs(x, nu=1)` and second derivative
`cs(x, 2)`.  The interpolator itself is external; concrete instantiations
below use polynomials of degree ≤ 3, reproduced exactly by the default
not-a-knot spline when the data lie on them. -/
structure CubicSplineFn where
  val : ℝ → ℝ
  der1 : ℝ → ℝ
  der2 : ℝ → ℝ

/-- Python `IndexError`, raised by `find_peaks(...)[0][0]` (line 117) when
the peak array is empty, or by `sigmaFOP.iloc[0]` (line 136) when the
selected fit range is empty.  The method defines and raises no other
exception on the modelled paths. -/
inductive PyError
  | indexError

/-- The values assigned by one `getSigmaP` call: the attributes
`self.sigmaMC`, `self.eMC`, `self.sigmaP`, `self.eSigmaP`, `self.ocr`,
together with the two local slopes of the geometric construction
(`slopeMP`, line 153, and `slopeBisect`, line 158). -/
structure SigmaPResult where
  sigmaMC : ℝ
  eMC : ℝ
  slopeMP : ℝ
  slopeBisect : ℝ
  sigmaP : ℝ
  eSigmaP : ℝ
  ocr : ℝ

/-- Inner helper `transform(x)` of `getSigmaP` (lines 98-108, forward
direction): `log10(log10(x))` when `loglog` else `log10(x)`. -/
noncomputable def transform (loglog : Bool) (x : ℝ) : ℝ :=
  if loglog then Real.logb 10 (Real.logb 10 x) else Real.logb 10 x

/-- `transform(x, reverse=True)` (lines 99-103): `10**10**x` when `loglog`
else `10**x`. -/
noncomputable def transformRev (loglog : Bool) (x : ℝ) : ℝ :=
  if loglog then (10:ℝ) ^ ((10:ℝ) ^ x) else (10:ℝ) ^ x

/-- `np.linspace(a, b, n)`: `n` evenly spaced samples from `a` to `b`,
endpoint included. -/
noncomputable def linspace (a b : ℝ) (n : ℕ) : List ℝ :=
  (List.range n).map (fun (i : ℕ) => a + (i:ℝ) * ((b - a) / ((n:ℝ) - 1)))

theorem linspace_length (a b : ℝ) (n : ℕ) : (linspace a b n).length = n := by
  unfold linspace
  rw [List.length_map, List.length_range]

theorem linspace_getD (a b : ℝ) (n i : ℕ) (h : i < n) :
    (linspace a b n).getD i 0 = a + (i:ℝ) * ((b - a) / ((n:ℝ) - 1)) := by
  unfold linspace
  rw [List.getD_eq_getElem _ _ (by rw [List.length_map, List.length_range]; exact h)]
  simp only [List.getElem_map, List.getElem_range]

/-- Modelled from the spec: `Data.findStressIdx` belongs to the data module
of the repository, which is not among the sources under verification; §4.1
says the polynomial fit selects "the contiguous index range of cleaned
points whose stress falls in that range".  We model the returned index as
the first position whose stress is at least the sought value. -/
noncomputable def findStressIdx (stress : List ℝ) (s : ℝ) : ℕ :=
  stress.findIdx (fun x => decide (s ≤ x))

/-- Intersection of the bisector line through `(x1, y1)` with slope `b` and
the virgin-compression line `e = idxCcInt - idxCc*log10(sigma)`: lines
162-166 of the source, returning `(sigmaP, eSigmaP, ocr)`.  The Python code
performs no degeneracy or plausibility check here and raises nothing
(numpy float division produces `inf`/`nan` rather than an exception). -/
noncomputable def intersectionSolver (x1 y1 b idxCc idxCcInt sigmaV : ℝ) : ℝ × ℝ × ℝ :=
  ((10:ℝ) ^ ((y1 - b * x1 - idxCcInt) / (-idxCc - b)),
   b * (Real.logb 10 ((10:ℝ) ^ ((y1 - b * x1 - idxCcInt) / (-idxCc - b))) - x1) + y1,
   (10:ℝ) ^ ((y1 - b * x1 - idxCcInt) / (-idxCc - b)) / sigmaV)

/-- `sigmaLog = np.log10(self.data.cleaned['stress'][1:])` (line 110). -/
noncomputable def sigmaLogOf (data : Data) : List ℝ :=
  (data.cleanedStress.drop 1).map (fun s => Real.logb 10 s)

/-- `sigmaCS = np.linspace(sigmaLog.iloc[0], sigmaLog.iloc[-1], 100)`
(line 112). -/
noncomputable def splineSamples (data : Data) : List ℝ :=
  linspace ((sigmaLogOf data).headD 0) ((sigmaLogOf data).getLastD 0) 100

/-- The spline-mode curvature samples (line 116):
`abs(cs(sigmaCS, 2)) / (1 + cs(sigmaCS, 1)**2)**(3/2)`. -/
noncomputable def splineCurvature (cs : CubicSplineFn) (data : Data) : List ℝ :=
  (splineSamples data).map
    (fun x => |cs.der2 x| / (1 + cs.der1 x ^ 2) ^ ((3:ℝ)/2))

/-- `sigmaFOP = self.data.cleaned['stress'][idxInitFOP:idxEndFOP]`
(line 130, a positional slice). -/
noncomputable def fopStress (data : Data) (lo hi : ℝ) : List ℝ :=
  (data.cleanedStress.take (findStressIdx data.cleanedStress hi)).drop
    (findStressIdx data.cleanedStress lo)

/-- `eFOP = self.data.cleaned['e'][idxInitFOP:idxEndFOP]` (line 132). -/
noncomputable def fopE (data : Data) (lo hi : ℝ) : List ℝ :=
  (data.cleanedE.take (findStressIdx data.cleanedStress hi)).drop
    (findStressIdx data.cleanedStress lo)

/-- `polyval(t, [p0, p1, p2, p3, p4])`: the fitted fourth-order polynomial
(lines 133-138). -/
def polyval4 (p0 p1 p2 p3 p4 t : ℝ) : ℝ :=
  p0 + p1 * t + p2 * t ^ 2 + p3 * t ^ 3 + p4 * t ^ 4

/-- `x4FOP = np.linspace(sigmaFOP.iloc[0], sigmaFOP.iloc[-1], 1000)`
(line 136): the 1000 polynomial-mode samples, spaced evenly in raw
stress. -/
noncomputable def polySamples (data : Data) (lo hi : ℝ) : List ℝ :=
  linspace ((fopStress data lo hi).headD 0) ((fopStress data lo hi).getLastD 0) 1000

/-- The polynomial-mode curvature samples (lines 141-143):
`abs(secondDer) / (1 + firstDer**2)**1.5` with the derivative polynomials
written out coefficient-wise exactly as in the source. -/
noncomputable def polyCurvature (p1 p2 p3 p4 : ℝ) (x4FOPlog : List ℝ) : List ℝ :=
  x4FOPlog.map (fun t =>
    |2*p2 + 6*p3*t + 12*p4*t^2| /
      (1 + (p1 + 2*p2*t + 3*p3*t^2 + 4*p4*t^3) ^ 2) ^ ((3:ℝ)/2))

/-- The maximum-curvature search of `getSigmaP` (lines 113-146): spline
branch when `range2fitFOP is None`, fourth-order-polynomial branch
otherwise.  Returns `(sigmaMC, eMC)` or the raised `IndexError`:
`find_peaks(...)[0][0]` raises on an empty peak array (line 117), and
`sigmaFOP.iloc[0]` raises on an empty slice (line 136).  In the polynomial
branch, `y4FOP[maxCurvIdx]` is written as the fitted polynomial evaluated
at `x4FOPlog[maxCurvIdx]`, which is the same value. -/
noncomputable def mcSearch (cs : CubicSplineFn)
    (pf : List ℝ → List ℝ → ℝ × ℝ × ℝ × ℝ × ℝ) (data : Data)
    (range2fitFOP : Option (ℝ × ℝ)) (loglog : Bool) : Except PyError (ℝ × ℝ) :=
  match range2fitFOP with
  | none =>
    match findPeaks (splineCurvature cs data) 500 with
    | [] => Except.error PyError.indexError
    | maxCurvIdx :: _ =>
      Except.ok ((10:ℝ) ^ ((splineSamples data).getD maxCurvIdx 0),
        cs.val ((splineSamples data).getD maxCurvIdx 0))
  | some (lo, hi) =>
    if (fopStress data lo hi).isEmpty then Except.error PyError.indexError
    else
      let ps := pf ((fopStress data lo hi).map (transform loglog)) (fopE data lo hi)
      let x4FOPlog := (polySamples data lo hi).map (transform loglog)
      let maxCurvIdx :=
        argmaxIdx (polyCurvature ps.2.1 ps.2.2.1 ps.2.2.2.1 ps.2.2.2.2 x4FOPlog)
      Except.ok (transformRev loglog (x4FOPlog.getD maxCurvIdx 0),
        polyval4 ps.1 ps.2.1 ps.2.2.1 ps.2.2.2.1 ps.2.2.2.2
          (x4FOPlog.getD maxCurvIdx 0))

/-- The tail of `getSigmaP` after the curvature search (lines 148-166):
the manual `mcp` override, the tangent and bisector slopes, and the
intersection with the virgin-compression line. -/
noncomputable def buildResult (cs : CubicSplineFn) (data : Data)
    (mcp : Option ℝ) (mc : ℝ × ℝ) : SigmaPResult :=
  let sigmaMC : ℝ := match mcp with | some m => m | none => mc.1
  let eMC : ℝ := match mcp with | some m => cs.val (Real.logb 10 m) | none => mc.2
  let slopeMP := cs.der1 (Real.logb 10 sigmaMC)
  let slopeBisect := slopeBisectOf slopeMP
  ⟨sigmaMC, eMC, slopeMP, slopeBisect,
    (intersectionSolver (Real.logb 10 sigmaMC) eMC slopeBisect
      data.idxCc data.idxCcInt data.sigmaV).1,
    (intersectionSolver (Real.logb 10 sigmaMC) eMC slopeBisect
      data.idxCc data.idxCcInt data.sigmaV).2.1,
    (intersectionSolver (Real.logb 10 sigmaMC) eMC slopeBisect
      data.idxCc data.idxCcInt data.sigmaV).2.2⟩

/-- Shallow embedding of `Casagrande.getSigmaP(mcp, range2fitFOP, loglog)`
(lines 71-166 of `casagrande.py`; the rest of the method renders the plot
and computes nothing further).

Parameters beyond the method's own:
* `cs` — the spline evaluators built at line 111 (external scipy
  interpolator over `(log10(stress[1:]), e[1:])`);
* `pf` — oracle for `polyfit(sigmaFOPlog, eFOP, deg=4)` (line 133),
  returning the coefficients `(p0, p1, p2, p3, p4)` of the external
  least-squares fit.

Faithful control flow: the curvature search of the selected mode runs (and
can raise) even when `mcp` is supplied, because the `if mcp is not None`
override (lines 148-150) comes after both search branches. -/
noncomputable def getSigmaP (cs : CubicSplineFn)
    (pf : List ℝ → List ℝ → ℝ × ℝ × ℝ × ℝ × ℝ) (data : Data)
    (mcp : Option ℝ) (range2fitFOP : Option (ℝ × ℝ)) (loglog : Bool) :
    Except PyError SigmaPResult :=
  (mcSearch cs pf data range2fitFOP loglog).map (buildResult cs data mcp)

/-- The attribute state of a `Casagrande` object: the `data` attribute set
by `__init__` and the five result attributes, absent before the first
successful `getSigmaP` call. -/
structure CasagrandeState where
  data : Data
  sigmaMC : Option ℝ
  eMC : Option ℝ
  sigmaP : Option ℝ
  eSigmaP : Option ℝ
  ocr : Option ℝ

/-- Effect of one `getSigmaP` call on the object state: the method reads
only `self.data` and, on success, assigns exactly the five result
attributes (lines 119-120 or 145-146, 149-150, 163-166); `self.data` is
never written.  On an exception no final attribute values are retained
(the spline branch raises at line 117, before any assignment). -/
noncomputable def runGetSigmaP (cs : CubicSplineFn)
    (pf : List ℝ → List ℝ → ℝ × ℝ × ℝ × ℝ × ℝ) (s : CasagrandeState)
    (mcp : Option ℝ) (range2fitFOP : Option (ℝ × ℝ)) (loglog : Bool) :
    Except PyError CasagrandeState :=
  (getSigmaP cs pf s.data mcp range2fitFOP loglog).map
    (fun r => ⟨s.data, some r.sigmaMC, some r.eMC, some r.sigmaP,
      some r.eSigmaP, some r.ocr⟩)

/-! ### Helper lemmas for the claim proofs -/

theorem except_map_ok {ε α β : Type} (f : α → β) (e : Except ε α) (b : β)
    (h : e.map f = Except.ok b) : ∃ a, e = Except.ok a ∧ f a = b := by
  cases e with
  | error err =>
    exact absurd h (by simp [Except.map])
  | ok a =>
    refine ⟨a, rfl, ?_⟩
    simpa [Except.map] using h

theorem buildResult_slopeMP (cs : CubicSplineFn) (data : Data)
    (mcp : Option ℝ) (mc : ℝ × ℝ) :
    (buildResult cs data mcp mc).slopeMP =
      cs.der1 (Real.logb 10 (buildResult cs data mcp mc).sigmaMC) := by
  cases mcp <;> rfl

theorem buildResult_slopeBisect (cs : CubicSplineFn) (data : Data)
    (mcp : Option ℝ) (mc : ℝ × ℝ) :
    (buildResult cs data mcp mc).slopeBisect =
      slopeBisectOf (buildResult cs data mcp mc).slopeMP := by
  cases mcp <;> rfl

theorem buildResult_solver (cs : CubicSplineFn) (data : Data)
    (mcp : Option ℝ) (mc : ℝ × ℝ) :
    ((buildResult cs data mcp mc).sigmaP, (buildResult cs data mcp mc).eSigmaP,
      (buildResult cs data mcp mc).ocr) =
      intersectionSolver (Real.logb 10 (buildResult cs data mcp mc).sigmaMC)
        (buildResult cs data mcp mc).eMC (buildResult cs data mcp mc).slopeBisect
        data.idxCc data.idxCcInt data.sigmaV := by
  cases mcp <;> rfl

theorem one_le_sqrt_one_add_sq (m : ℝ) : 1 ≤ Real.sqrt (1 + m ^ 2) := by
  have hs0 : (0:ℝ) ≤ 1 + m ^ 2 := by positivity
  nlinarith [Real.sq_sqrt hs0, Real.sqrt_nonneg (1 + m ^ 2),
    sq_nonneg (Real.sqrt (1 + m ^ 2) - 1)]

/-! ### The claims -/

/-- C1: for every bisector line through `(x1, y1) = (log10(sigmaMC), eMC)`
with slope `b` and every virgin-compression line `(slope_vcl, intercept)`
with `-slope_vcl - b` nonzero, the intersection solver (lines 162-166)
returns `sigmaP = 10^((y1 - b*x1 - intercept) / (-slope_vcl - b))`,
`eSigmaP = b*(log10(sigmaP) - x1) + y1`, and `ocr = sigmaP / sigmaV`;
moreover `log10(sigmaP)` is exactly the exponent of the closed form. -/
theorem C1_intersection_solver (x1 y1 b slopeVcl intercept sigmaV : ℝ)
    (hnz : -slopeVcl - b ≠ 0) :
    (intersectionSolver x1 y1 b slopeVcl intercept sigmaV).1 =
      (10:ℝ) ^ ((y1 - b * x1 - intercept) / (-slopeVcl - b)) ∧
    Real.logb 10 (intersectionSolver x1 y1 b slopeVcl intercept sigmaV).1 =
      (y1 - b * x1 - intercept) / (-slopeVcl - b) ∧
    (intersectionSolver x1 y1 b slopeVcl intercept sigmaV).2.1 =
      b * (Real.logb 10 (intersectionSolver x1 y1 b slopeVcl intercept sigmaV).1 - x1)
        + y1 ∧
    (intersectionSolver x1 y1 b slopeVcl intercept sigmaV).2.2 =
      (intersectionSolver x1 y1 b slopeVcl intercept sigmaV).1 / sigmaV := by
  refine ⟨rfl, ?_, rfl, rfl⟩
  exact Real.logb_rpow (by norm_num) (by norm_num)

/-- Witness for C1 at `x1 = 0, y1 = 0, b = 0, slope_vcl = 1, intercept = -1,
sigmaV = 1`. -/
theorem C1_witness :
    ((-(1:ℝ) - 0 ≠ 0) ∧
      ((intersectionSolver 0 0 0 1 (-1) 1).1 =
        (10:ℝ) ^ (((0:ℝ) - 0 * 0 - (-1)) / (-(1:ℝ) - 0)) ∧
      Real.logb 10 (intersectionSolver 0 0 0 1 (-1) 1).1 =
        ((0:ℝ) - 0 * 0 - (-1)) / (-(1:ℝ) - 0) ∧
      (intersectionSolver 0 0 0 1 (-1) 1).2.1 =
        0 * (Real.logb 10 (intersectionSolver 0 0 0 1 (-1) 1).1 - 0) + 0 ∧
      (intersectionSolver 0 0 0 1 (-1) 1).2.2 =
        (intersectionSolver 0 0 0 1 (-1) 1).1 / 1)) :=
  ⟨by norm_num, C1_intersection_solver 0 0 0 1 (-1) 1 (by norm_num)⟩

/-- C8: for every tangent slope `m < 0`, the bisector slope
`b = tan(0.5*atan(m))` is strictly between `0` and `m`: `b < 0`,
`|b| > 0`, and `|b| < |m|`. -/
theorem C8_halving_property (m : ℝ) (hm : m < 0) :
    slopeBisectOf m < 0 ∧ 0 < |slopeBisectOf m| ∧
      |slopeBisectOf m| < |m| ∧ m < slopeBisectOf m := by
  rw [slopeBisectOf_eq]
  have hs1 := one_le_sqrt_one_add_sq m
  have hden : (0:ℝ) < 1 + Real.sqrt (1 + m ^ 2) := by linarith
  have hb : m / (1 + Real.sqrt (1 + m ^ 2)) < 0 := div_neg_of_neg_of_pos hm hden
  refine ⟨hb, abs_pos.mpr (ne_of_lt hb), ?_, ?_⟩
  · rw [abs_div, abs_of_pos hden]
    exact div_lt_self (abs_pos.mpr (ne_of_lt hm)) (by linarith)
  · rw [lt_div_iff hden]
    nlinarith

/-- Witness for C8 at `m = -1`. -/
theorem C8_witness :
    ((-1:ℝ) < 0 ∧ (slopeBisectOf (-1) < 0 ∧ 0 < |slopeBisectOf (-1)| ∧
      |slopeBisectOf (-1)| < |(-1:ℝ)| ∧ (-1:ℝ) < slopeBisectOf (-1))) :=
  ⟨by norm_num, C8_halving_property (-1) (by norm_num)⟩

/-- C3: in every mode (spline, polynomial, and manual override), once
`getSigmaP` succeeds, the tangent slope is the first derivative of the
interpolating cubic spline evaluated at `log10(sigmaMC)` and the bisector
slope is `tan(0.5*atan(slopeMP))`; the last two conjuncts separate this
half-angle formula from the arithmetic mean `(0 + m)/2` of the horizontal
and tangent slopes at a sample slope. -/
theorem C3_bisector_from_spline (cs : CubicSplineFn)
    (pf : List ℝ → List ℝ → ℝ × ℝ × ℝ × ℝ × ℝ) (data : Data)
    (mcp : Option ℝ) (range2fitFOP : Option (ℝ × ℝ)) (loglog : Bool)
    (r : SigmaPResult)
    (h : getSigmaP cs pf data mcp range2fitFOP loglog = Except.ok r) :
    r.slopeMP = cs.der1 (Real.logb 10 r.sigmaMC) ∧
    r.slopeBisect = Real.tan (0.5 * Real.arctan r.slopeMP) ∧
    slopeBisectOf (-(4/3)) = -(1/2) ∧
    slopeBisectOf (-(4/3)) ≠ (0 + -(4/3)) / 2 := by
  obtain ⟨mc, hmc, hr⟩ := except_map_ok _ _ _ h
  refine ⟨?_, ?_, slopeBisectOf_neg_four_thirds, ?_⟩
  · rw [← hr]
    exact buildResult_slopeMP cs data mcp mc
  · rw [← hr]
    rw [buildResult_slopeBisect cs data mcp mc]
    rfl
  · rw [slopeBisectOf_neg_four_thirds]
    norm_num

/-- C5 counterexample: at `x1 = 0, y1 = 0, b = 0`, virgin-line slope
`idxCc = -1e-10` and intercept `idxCcInt = -2e-10`, the difference
`|-idxCc - b| = 1e-10` is positive and below the claimed `1e-9` tolerance,
yet the solver does not fail: it returns the ordinary Result
`(100, 0, 100)` (with `sigmaV = 1`).  The source (lines 162-166) contains
no degeneracy check and no `DegenerateGeometryError`. -/
theorem C5_counterexample :
    (0 < |(-(-(1:ℝ)/10^10)) - 0| ∧ |(-(-(1:ℝ)/10^10)) - 0| < 1/10^9) ∧
    intersectionSolver 0 0 0 (-(1:ℝ)/10^10) (-(2:ℝ)/10^10) 1 = (100, 0, 100) := by
  refine ⟨⟨by norm_num, by rw [abs_of_nonneg (by norm_num)]; norm_num⟩, ?_⟩
  unfold intersectionSolver
  have hE : ((0:ℝ) - 0 * 0 - (-(2:ℝ)/10^10)) / (-(-(1:ℝ)/10^10) - 0) = 2 := by
    norm_num
  rw [hE]
  have h10 : (10:ℝ) ^ (2:ℝ) = 100 := by
    rw [show (2:ℝ) = ((2:ℕ):ℝ) by norm_num, Real.rpow_natCast]
    norm_num
  rw [h10]
  norm_num

/-- C5 amended: the code performs no near-parallel check at all: whenever
`0 < |-slope_vcl - b| < 1e-9` (lines nearly parallel), the solver still
returns the closed-form triple — with `log10(sigmaP)` equal to the
exponent — and raises nothing. -/
theorem C5_amended_no_degeneracy_check (x1 y1 b slopeVcl intercept sigmaV : ℝ)
    (h1 : 0 < |(-slopeVcl) - b|) (h2 : |(-slopeVcl) - b| < 1/10^9) :
    intersectionSolver x1 y1 b slopeVcl intercept sigmaV =
      ((10:ℝ) ^ ((y1 - b * x1 - intercept) / (-slopeVcl - b)),
       b * ((y1 - b * x1 - intercept) / (-slopeVcl - b) - x1) + y1,
       (10:ℝ) ^ ((y1 - b * x1 - intercept) / (-slopeVcl - b)) / sigmaV) := by
  unfold intersectionSolver
  rw [Real.logb_rpow (by norm_num) (by norm_num)]

/-- Witness for the amended C5 at the counterexample's inputs. -/
theorem C5_witness :
    ((0 < |(-(-(1:ℝ)/10^10)) - 0| ∧ |(-(-(1:ℝ)/10^10)) - 0| < 1/10^9) ∧
     intersectionSolver 0 0 0 (-(1:ℝ)/10^10) (-(2:ℝ)/10^10) 1 =
      ((10:ℝ) ^ (((0:ℝ) - 0 * 0 - (-(2:ℝ)/10^10)) / (-(-(1:ℝ)/10^10) - 0)),
       0 * (((0:ℝ) - 0 * 0 - (-(2:ℝ)/10^10)) / (-(-(1:ℝ)/10^10) - 0) - 0) + 0,
       (10:ℝ) ^ (((0:ℝ) - 0 * 0 - (-(2:ℝ)/10^10)) / (-(-(1:ℝ)/10^10) - 0)) / 1)) :=
  ⟨⟨by norm_num, by rw [abs_of_nonneg (by norm_num)]; norm_num⟩,
    C5_amended_no_degeneracy_check 0 0 0 (-(1:ℝ)/10^10) (-(2:ℝ)/10^10) 1
      (by norm_num) (by rw [abs_of_nonneg (by norm_num)]; norm_num)⟩

/-- C6 amended: in spline mode (any `mcp`, any `loglog`), if the curvature
samples contain no qualifying peak, `getSigmaP` fails with the untyped
Python `IndexError` raised by `find_peaks(curvature, distance=500)[0][0]`
(line 117); the failure is explicit (an exception), but it is a plain
`IndexError`, not a typed `NoCurvatureMaximumError` — no such class exists
in the code. -/
theorem C6_amended_untyped_indexerror (cs : CubicSplineFn)
    (pf : List ℝ → List ℝ → ℝ × ℝ × ℝ × ℝ × ℝ) (data : Data)
    (mcp : Option ℝ) (loglog : Bool)
    (h : findPeaks (splineCurvature cs data) 500 = []) :
    getSigmaP cs pf data mcp none loglog = Except.error PyError.indexError := by
  unfold getSigmaP mcSearch
  rw [h]
  rfl

/-- The straight-line model `e = 5 - x/2` in `(log10(stress), e)` space:
the not-a-knot cubic spline through collinear points is that line, so this
triple is exactly what `CubicSpline` returns for `dataC6` below. -/
noncomputable def linModel : CubicSplineFn :=
  ⟨fun x => 5 - x / 2, fun _ => -(1/2), fun _ => 0⟩

/-- Data whose cleaned curve is log-linear: stresses `1/2, 1, 10, 100`
(log10 of the tail: `0, 1, 2`) with void ratios on the line `5 - x/2`. -/
noncomputable def dataC6 : Data :=
  ⟨[1/2, 1, 10, 100], [21/4, 5, 9/2, 4], 1/4, 2, 1⟩

/-- A trivial polynomial-fit oracle for runs that never reach the
polynomial branch. -/
def pf0 : List ℝ → List ℝ → ℝ × ℝ × ℝ × ℝ × ℝ := fun _ _ => (0, 0, 0, 0, 0)

theorem linModel_curvature_zero (k : ℕ) :
    (splineCurvature linModel dataC6).getD k default = 0 := by
  by_cases h : k < (splineCurvature linModel dataC6).length
  · rw [List.getD_eq_getElem _ _ h]
    unfold splineCurvature at h ⊢
    rw [List.getElem_map]
    show |linModel.der2 _| / _ = 0
    unfold linModel
    simp
  · rw [List.getD_eq_default _ _ (by omega)]
    rfl

theorem linModel_no_peaks :
    findPeaks (splineCurvature linModel dataC6) 500 = [] := by
  apply findPeaks_of_no_maxima
  apply lmAux_no_rise _ _ 1 (le_refl 1)
  intro i _ _
  rw [linModel_curvature_zero, linModel_curvature_zero]
  exact lt_irrefl 0

/-- C6 counterexample: on the log-linear data `dataC6` (whose spline is the
straight line `linModel`), the curvature is identically zero, the peak
search finds nothing, and the call fails with the untyped `IndexError` —
there is no typed `NoCurvatureMaximumError` in the program. -/
theorem C6_counterexample :
    findPeaks (splineCurvature linModel dataC6) 500 = [] ∧
    getSigmaP linModel pf0 dataC6 none none true =
      Except.error PyError.indexError := by
  refine ⟨linModel_no_peaks, ?_⟩
  unfold getSigmaP mcSearch
  rw [linModel_no_peaks]
  rfl

/-- Witness for the amended C6 at the concrete log-linear run. -/
theorem C6_witness :
    (findPeaks (splineCurvature linModel dataC6) 500 = [] ∧
     getSigmaP linModel pf0 dataC6 (some 7) none false =
      Except.error PyError.indexError) :=
  ⟨linModel_no_peaks,
    C6_amended_untyped_indexerror linModel pf0 dataC6 (some 7) false linModel_no_peaks⟩

/-- Sample list separating the first-qualifying-peak rule from the global
argmax: the global maximum sits at index 0 (a boundary, which
`find_peaks` never reports), while the selected peak is index 2. -/
def demoSamples : List ℚ := [5, 1, 2, 1]

/-- C2: in spline mode (no manual MCP, no polynomial range), a successful
`getSigmaP` samples the spline curvature
`|f''(x)| / (1 + f'(x)²)^(3/2)` at exactly 100 evenly spaced points of the
log10-stress domain and takes the FIRST peak reported by
`find_peaks(curvature, distance=500)` as the maximum-curvature point; the
final conjuncts show on `demoSamples` that this rule is not the global
argmax of the curvature samples. -/
theorem C2_spline_mode_selection (cs : CubicSplineFn)
    (pf : List ℝ → List ℝ → ℝ × ℝ × ℝ × ℝ × ℝ) (data : Data) (loglog : Bool)
    (r : SigmaPResult)
    (h : getSigmaP cs pf data none none loglog = Except.ok r) :
    (splineSamples data).length = 100 ∧
    (∀ i, i < 100 → (splineSamples data).getD i 0 =
      (sigmaLogOf data).headD 0 + (i:ℝ) *
        (((sigmaLogOf data).getLastD 0 - (sigmaLogOf data).headD 0) /
          ((100:ℝ) - 1))) ∧
    splineCurvature cs data = (splineSamples data).map
      (fun x => |cs.der2 x| / (1 + cs.der1 x ^ 2) ^ ((3:ℝ)/2)) ∧
    (∃ i rest, findPeaks (splineCurvature cs data) 500 = i :: rest ∧
      r.sigmaMC = (10:ℝ) ^ ((splineSamples data).getD i 0) ∧
      r.eMC = cs.val ((splineSamples data).getD i 0)) ∧
    (findPeaks demoSamples 500).head? = some 2 ∧
    argmaxIdx demoSamples = 0 := by
  refine ⟨linspace_length _ _ _, ?_, rfl, ?_, by decide, by decide⟩
  · intro i hi
    exact linspace_getD _ _ _ _ hi
  · obtain ⟨mc, hmc, hr⟩ := except_map_ok _ _ _ h
    unfold mcSearch at hmc
    cases hfp : findPeaks (splineCurvature cs data) 500 with
    | nil =>
      rw [hfp] at hmc
      exact absurd hmc (by simp)
    | cons i rest =>
      rw [hfp] at hmc
      refine ⟨i, rest, rfl, ?_, ?_⟩
      · rw [← hr]
        have : mc = ((10:ℝ) ^ ((splineSamples data).getD i 0),
            cs.val ((splineSamples data).getD i 0)) := by
          injection hmc with h'
          exact h'.symm
        rw [this]
        rfl
      · rw [← hr]
        have : mc = ((10:ℝ) ^ ((splineSamples data).getD i 0),
            cs.val ((splineSamples data).getD i 0)) := by
          injection hmc with h'
          exact h'.symm
        rw [this]
        rfl

/-! ### A concrete spline-mode run

The parabola `q(x) = 2/3*(x - 50)² + 1/3` over the log10-stress domain
`[0, 99]`.  The cleaned stresses of `dataA` are `1/2, 1, 10, 10^99`:
dropping the first point, the spline knots are `x = 0, 1, 99` with void
ratios `q(0) = 1667`, `q(1) = 1601`, `q(99) = 1601` — three points on the
parabola, and the not-a-knot `CubicSpline` through three points is the
parabola through them, so `quadACS` is exactly the spline the source
builds for `dataA`. -/

noncomputable def quadACS : CubicSplineFn :=
  ⟨fun x => 2/3 * (x - 50) ^ 2 + 1/3,
   fun x => 4/3 * (x - 50),
   fun _ => 4/3⟩

noncomputable def dataA : Data :=
  ⟨[1/2, 1, 10, (10:ℝ)^(99:ℝ)], [2, 1667, 1601, 1601], 1/4, 25, 1⟩

theorem sigmaLogA : sigmaLogOf dataA = [0, 1, 99] := by
  unfold sigmaLogOf dataA
  simp only [List.drop, List.map_cons, List.map_nil]
  rw [Real.logb_one, Real.logb_self_eq_one (by norm_num),
    Real.logb_rpow (by norm_num) (by norm_num)]

theorem samplesA_getD (i : ℕ) (hi : i < 100) :
    (splineSamples dataA).getD i 0 = (i:ℝ) := by
  unfold splineSamples
  rw [sigmaLogA, linspace_getD _ _ _ _ hi]
  show (0:ℝ) + (i:ℝ) * ((99 - 0) / ((100:ℝ) - 1)) = (i:ℝ)
  norm_num

theorem curvA_length : (splineCurvature quadACS dataA).length = 100 := by
  unfold splineCurvature splineSamples
  rw [List.length_map, linspace_length]

theorem curvA_getD (k : ℕ) (hk : k < 100) :
    (splineCurvature quadACS dataA).getD k default =
      (4/3) / (1 + 16/9 * ((k:ℝ) - 50) ^ 2) ^ ((3:ℝ)/2) := by
  have hk' : k < (splineCurvature quadACS dataA).length := by
    rw [curvA_length]; exact hk
  have hsm : k < (splineSamples dataA).length := by
    unfold splineSamples
    rw [linspace_length]
    exact hk
  have hs := samplesA_getD k hk
  rw [List.getD_eq_getElem _ _ hsm] at hs
  rw [List.getD_eq_getElem _ _ hk']
  unfold splineCurvature
  rw [List.getElem_map, hs]
  show |quadACS.der2 (k:ℝ)| / (1 + quadACS.der1 (k:ℝ) ^ 2) ^ ((3:ℝ)/2) = _
  unfold quadACS
  simp only
  rw [abs_of_pos (by norm_num : (0:ℝ) < 4/3)]
  ring_nf

theorem curvA_localMaxima : localMaxima (splineCurvature quadACS dataA) = [50] := by
  have hlen := curvA_length
  have key : ∀ u w : ℝ, 0 ≤ 16/9 * u ^ 2 → 16/9 * u ^ 2 < 16/9 * w ^ 2 →
      (4/3) / (1 + 16/9 * w ^ 2) ^ ((3:ℝ)/2) <
        (4/3) / (1 + 16/9 * u ^ 2) ^ ((3:ℝ)/2) := by
    intro u w h1 h2
    exact curvVal_lt_curvVal (4/3) _ _ (by norm_num) h1 h2
  have hinc : ∀ i, i + 1 ≤ 50 →
      (splineCurvature quadACS dataA).getD i default <
        (splineCurvature quadACS dataA).getD (i + 1) default := by
    intro i hi
    rw [curvA_getD i (by omega), curvA_getD (i + 1) (by omega)]
    have hcast : (i:ℝ) ≤ 49 := by
      have : i ≤ 49 := by omega
      exact_mod_cast this
    apply key
    · positivity
    · push_cast
      nlinarith
  have hfall : (splineCurvature quadACS dataA).getD (50 + 1) default <
      (splineCurvature quadACS dataA).getD 50 default := by
    rw [curvA_getD 51 (by omega), curvA_getD 50 (by omega)]
    apply key
    · positivity
    · norm_num
  have hdec : ∀ i, 50 + 1 ≤ i → i + 1 < (splineCurvature quadACS dataA).length →
      ¬ (splineCurvature quadACS dataA).getD i default <
        (splineCurvature quadACS dataA).getD (i + 1) default := by
    intro i hi hilen
    rw [hlen] at hilen
    rw [curvA_getD i (by omega), curvA_getD (i + 1) (by omega)]
    apply not_lt_of_lt
    have hcast : (51:ℝ) ≤ (i:ℝ) := by exact_mod_cast hi
    apply key
    · positivity
    · push_cast
      nlinarith
  unfold localMaxima
  exact lmAux_strict_peak (splineCurvature quadACS dataA) 50 (by norm_num)
    (by rw [hlen]; norm_num) hinc hfall hdec
    (splineCurvature quadACS dataA).length 1 (le_refl 1) (by norm_num)
    (by rw [hlen]; omega)

theorem findPeaksA : findPeaks (splineCurvature quadACS dataA) 500 = [50] :=
  findPeaks_of_single_maximum _ _ _ curvA_localMaxima

theorem mcSearchA (pf : List ℝ → List ℝ → ℝ × ℝ × ℝ × ℝ × ℝ) (loglog : Bool) :
    mcSearch quadACS pf dataA none loglog =
      Except.ok ((10:ℝ)^(50:ℝ), 1/3) := by
  unfold mcSearch
  rw [findPeaksA]
  show Except.ok ((10:ℝ) ^ (splineSamples dataA).getD 50 0,
    quadACS.val ((splineSamples dataA).getD 50 0)) = _
  have h50 : (splineSamples dataA).getD 50 0 = (50:ℝ) := by
    rw [samplesA_getD 50 (by norm_num)]
    norm_num
  rw [h50]
  have hval : quadACS.val (50:ℝ) = 1/3 := by
    unfold quadACS
    norm_num
  rw [hval]

theorem buildResult_none_eq (cs : CubicSplineFn) (data : Data) (mc : ℝ × ℝ) :
    buildResult cs data none mc =
      ⟨mc.1, mc.2, cs.der1 (Real.logb 10 mc.1),
        slopeBisectOf (cs.der1 (Real.logb 10 mc.1)),
        (intersectionSolver (Real.logb 10 mc.1) mc.2
          (slopeBisectOf (cs.der1 (Real.logb 10 mc.1)))
          data.idxCc data.idxCcInt data.sigmaV).1,
        (intersectionSolver (Real.logb 10 mc.1) mc.2
          (slopeBisectOf (cs.der1 (Real.logb 10 mc.1)))
          data.idxCc data.idxCcInt data.sigmaV).2.1,
        (intersectionSolver (Real.logb 10 mc.1) mc.2
          (slopeBisectOf (cs.der1 (Real.logb 10 mc.1)))
          data.idxCc data.idxCcInt data.sigmaV).2.2⟩ := rfl

theorem buildResult_some_eq (cs : CubicSplineFn) (data : Data) (m : ℝ) (mc : ℝ × ℝ) :
    buildResult cs data (some m) mc =
      ⟨m, cs.val (Real.logb 10 m), cs.der1 (Real.logb 10 m),
        slopeBisectOf (cs.der1 (Real.logb 10 m)),
        (intersectionSolver (Real.logb 10 m) (cs.val (Real.logb 10 m))
          (slopeBisectOf (cs.der1 (Real.logb 10 m)))
          data.idxCc data.idxCcInt data.sigmaV).1,
        (intersectionSolver (Real.logb 10 m) (cs.val (Real.logb 10 m))
          (slopeBisectOf (cs.der1 (Real.logb 10 m)))
          data.idxCc data.idxCcInt data.sigmaV).2.1,
        (intersectionSolver (Real.logb 10 m) (cs.val (Real.logb 10 m))
          (slopeBisectOf (cs.der1 (Real.logb 10 m)))
          data.idxCc data.idxCcInt data.sigmaV).2.2⟩ := rfl

/-- The full spline-mode run on `dataA` (no manual MCP): the peak search
selects sample index 50 (log10-stress 50), the tangent there is horizontal,
and the bisector construction degenerates to the horizontal line. -/
theorem quadA_none_run :
    getSigmaP quadACS pf0 dataA none none true =
      Except.ok ⟨(10:ℝ)^(50:ℝ), 1/3, 0, 0,
        (10:ℝ)^((296:ℝ)/3), 1/3, (10:ℝ)^((296:ℝ)/3)⟩ := by
  unfold getSigmaP
  rw [mcSearchA pf0 true]
  show Except.ok (buildResult quadACS dataA none ((10:ℝ)^(50:ℝ), 1/3)) = _
  rw [buildResult_none_eq]
  have hlog : Real.logb 10 ((10:ℝ)^(50:ℝ)) = 50 :=
    Real.logb_rpow (by norm_num) (by norm_num)
  have hder : quadACS.der1 (Real.logb 10 ((10:ℝ)^(50:ℝ))) = 0 := by
    rw [hlog]
    unfold quadACS
    norm_num
  have hbis : slopeBisectOf (quadACS.der1 (Real.logb 10 ((10:ℝ)^(50:ℝ)))) = 0 := by
    rw [hder, slopeBisectOf_zero]
  have hE : ((1:ℝ)/3 - 0 * Real.logb 10 ((10:ℝ)^(50:ℝ)) - dataA.idxCcInt) /
      (-dataA.idxCc - 0) = 296/3 := by
    show ((1:ℝ)/3 - 0 * Real.logb 10 ((10:ℝ)^(50:ℝ)) - 25) / (-(1/4) - 0) = 296/3
    rw [zero_mul]
    norm_num
  have hsolver : intersectionSolver (Real.logb 10 ((10:ℝ)^(50:ℝ))) (1/3) 0
      dataA.idxCc dataA.idxCcInt dataA.sigmaV =
      ((10:ℝ)^((296:ℝ)/3), 1/3, (10:ℝ)^((296:ℝ)/3)) := by
    unfold intersectionSolver
    rw [hE]
    show ((10:ℝ)^((296:ℝ)/3),
      0 * (Real.logb 10 ((10:ℝ)^((296:ℝ)/3)) - Real.logb 10 ((10:ℝ)^(50:ℝ))) + 1/3,
      (10:ℝ)^((296:ℝ)/3) / dataA.sigmaV) = _
    rw [zero_mul, zero_add]
    show ((10:ℝ)^((296:ℝ)/3), (1:ℝ)/3, (10:ℝ)^((296:ℝ)/3) / (1:ℝ)) = _
    rw [div_one]
  rw [hbis, hsolver, hder]

/-- The manual-override run on `dataA` with `mcp = 10^49`: the (discarded)
spline search still succeeds, the MCP is overwritten to `10^49` where the
tangent slope is `-4/3` and the bisector slope `-1/2`, and the intersection
yields `sigmaP = 100`, `eSigmaP = 49/2`, `ocr = 100`. -/
theorem quadA_mcp_run :
    getSigmaP quadACS pf0 dataA (some ((10:ℝ)^(49:ℝ))) none true =
      Except.ok ⟨(10:ℝ)^(49:ℝ), 1, -(4/3), -(1/2), 100, 49/2, 100⟩ := by
  unfold getSigmaP
  rw [mcSearchA pf0 true]
  show Except.ok (buildResult quadACS dataA (some ((10:ℝ)^(49:ℝ)))
    ((10:ℝ)^(50:ℝ), 1/3)) = _
  rw [buildResult_some_eq]
  have hlog : Real.logb 10 ((10:ℝ)^(49:ℝ)) = 49 :=
    Real.logb_rpow (by norm_num) (by norm_num)
  have hval : quadACS.val (Real.logb 10 ((10:ℝ)^(49:ℝ))) = 1 := by
    rw [hlog]
    unfold quadACS
    norm_num
  have hder : quadACS.der1 (Real.logb 10 ((10:ℝ)^(49:ℝ))) = -(4/3) := by
    rw [hlog]
    unfold quadACS
    norm_num
  have hbis : slopeBisectOf (quadACS.der1 (Real.logb 10 ((10:ℝ)^(49:ℝ)))) = -(1/2) := by
    rw [hder, slopeBisectOf_neg_four_thirds]
  have hE : ((1:ℝ) - -(1/2) * (49:ℝ) - (25:ℝ)) / (-(1/4) - -(1/2)) = 2 := by
    norm_num
  have hsolver : intersectionSolver (Real.logb 10 ((10:ℝ)^(49:ℝ))) 1 (-(1/2))
      dataA.idxCc dataA.idxCcInt dataA.sigmaV = (100, 49/2, 100) := by
    unfold intersectionSolver
    show ((10:ℝ) ^ ((1 - -(1/2) * Real.logb 10 ((10:ℝ)^(49:ℝ)) - dataA.idxCcInt) /
        (-dataA.idxCc - -(1/2))), _, _) = _
    rw [hlog]
    show ((10:ℝ) ^ (((1:ℝ) - -(1/2) * (49:ℝ) - (25:ℝ)) / (-(1/4) - -(1/2))),
      -(1/2) * (Real.logb 10 ((10:ℝ) ^ (((1:ℝ) - -(1/2) * (49:ℝ) - (25:ℝ)) /
        (-(1/4) - -(1/2)))) - (49:ℝ)) + 1,
      (10:ℝ) ^ (((1:ℝ) - -(1/2) * (49:ℝ) - (25:ℝ)) / (-(1/4) - -(1/2))) / (1:ℝ)) = _
    rw [hE]
    have h100 : (10:ℝ) ^ (2:ℝ) = 100 := by
      rw [show (2:ℝ) = ((2:ℕ):ℝ) by norm_num, Real.rpow_natCast]
      norm_num
    rw [Real.logb_rpow (by norm_num) (by norm_num), h100, div_one]
    norm_num
  rw [hval, hbis, hsolver, hder]

/-- C4 counterexample: on `dataA` with manual `mcp = 10^49`, the call
succeeds and `voidRatioAtPreconsolidation` (`eSigmaP = 49/2`) differs from
the spline-model evaluation at `log10(mcp)` (`= 1`): the claimed equality
fails on the code (it is the MCP void ratio `eMC`, not `eSigmaP`, that
equals the spline value). -/
theorem C4_counterexample :
    getSigmaP quadACS pf0 dataA (some ((10:ℝ)^(49:ℝ))) none true =
      Except.ok ⟨(10:ℝ)^(49:ℝ), 1, -(4/3), -(1/2), 100, 49/2, 100⟩ ∧
    (49/2 : ℝ) ≠ quadACS.val (Real.logb 10 ((10:ℝ)^(49:ℝ))) := by
  refine ⟨quadA_mcp_run, ?_⟩
  rw [Real.logb_rpow (by norm_num) (by norm_num)]
  unfold quadACS
  norm_num

/-- C4 amended: when the caller supplies `mcp`, the curvature search still
executes (its failure is not bypassed), but on success its outcome is
overwritten: the MCP is the supplied pressure, the MCP void ratio is the
cubic spline evaluated at `log10(mcp)` — independent of the search mode —
and `voidRatioAtPreconsolidation` is the bisector-line value
`b*(log10(sigmaP) - log10(mcp)) + eMC`, which in general differs from the
spline value. -/
theorem C4_amended_manual_override (cs : CubicSplineFn)
    (pf : List ℝ → List ℝ → ℝ × ℝ × ℝ × ℝ × ℝ) (data : Data) (m : ℝ)
    (range2fitFOP : Option (ℝ × ℝ)) (loglog : Bool) (r : SigmaPResult)
    (h : getSigmaP cs pf data (some m) range2fitFOP loglog = Except.ok r) :
    r.sigmaMC = m ∧ r.eMC = cs.val (Real.logb 10 m) ∧
    r.eSigmaP = r.slopeBisect * (Real.logb 10 r.sigmaP - Real.logb 10 m) + r.eMC := by
  obtain ⟨mc, hmc, hr⟩ := except_map_ok _ _ _ h
  rw [← hr, buildResult_some_eq]
  exact ⟨rfl, rfl, rfl⟩

/-- Witness for the amended C4 at the `dataA` manual-override run. -/
theorem C4_witness :
    (getSigmaP quadACS pf0 dataA (some ((10:ℝ)^(49:ℝ))) none true =
      Except.ok ⟨(10:ℝ)^(49:ℝ), 1, -(4/3), -(1/2), 100, 49/2, 100⟩) ∧
    ((⟨(10:ℝ)^(49:ℝ), 1, -(4/3), -(1/2), 100, 49/2, 100⟩ : SigmaPResult).sigmaMC =
        (10:ℝ)^(49:ℝ) ∧
      (⟨(10:ℝ)^(49:ℝ), 1, -(4/3), -(1/2), 100, 49/2, 100⟩ : SigmaPResult).eMC =
        quadACS.val (Real.logb 10 ((10:ℝ)^(49:ℝ))) ∧
      (⟨(10:ℝ)^(49:ℝ), 1, -(4/3), -(1/2), 100, 49/2, 100⟩ : SigmaPResult).eSigmaP =
        (⟨(10:ℝ)^(49:ℝ), 1, -(4/3), -(1/2), 100, 49/2, 100⟩ : SigmaPResult).slopeBisect *
          (Real.logb 10
            (⟨(10:ℝ)^(49:ℝ), 1, -(4/3), -(1/2), 100, 49/2, 100⟩ : SigmaPResult).sigmaP -
            Real.logb 10 ((10:ℝ)^(49:ℝ))) +
          (⟨(10:ℝ)^(49:ℝ), 1, -(4/3), -(1/2), 100, 49/2, 100⟩ : SigmaPResult).eMC) :=
  ⟨quadA_mcp_run,
    C4_amended_manual_override quadACS pf0 dataA ((10:ℝ)^(49:ℝ)) none true _ quadA_mcp_run⟩

/-- C9: `getSigmaP` is pure with respect to the supplied data: a successful
call leaves the `data` attribute unchanged and assigns the result
attributes to values computed freshly from `data` and the arguments alone —
any object state with the same `data` yields the identical outcome. -/
theorem C9_pure_frame (cs : CubicSplineFn)
    (pf : List ℝ → List ℝ → ℝ × ℝ × ℝ × ℝ × ℝ) (s : CasagrandeState)
    (mcp : Option ℝ) (range2fitFOP : Option (ℝ × ℝ)) (loglog : Bool)
    (s' : CasagrandeState)
    (h : runGetSigmaP cs pf s mcp range2fitFOP loglog = Except.ok s') :
    s'.data = s.data ∧
    (∀ t : CasagrandeState, t.data = s.data →
      runGetSigmaP cs pf t mcp range2fitFOP loglog = Except.ok s') := by
  unfold runGetSigmaP at h
  obtain ⟨r, hr, hs'⟩ := except_map_ok _ _ _ h
  constructor
  · rw [← hs']
  · intro t ht
    unfold runGetSigmaP
    rw [ht, hr]
    show Except.ok _ = Except.ok s'
    rw [← hs']

/-- Initial object state over `dataA` (no results yet). -/
noncomputable def stateA0 : CasagrandeState := ⟨dataA, none, none, none, none, none⟩

/-- Object state over `dataA` with stale results from an earlier call. -/
noncomputable def stateA1 : CasagrandeState :=
  ⟨dataA, some 42, some 7, some 3, some 2, some 1⟩

/-- The state after a successful spline-mode run on `dataA`. -/
noncomputable def stateAOut : CasagrandeState :=
  ⟨dataA, some ((10:ℝ)^(50:ℝ)), some (1/3), some ((10:ℝ)^((296:ℝ)/3)),
    some (1/3), some ((10:ℝ)^((296:ℝ)/3))⟩

theorem runA_state0 :
    runGetSigmaP quadACS pf0 stateA0 none none true = Except.ok stateAOut := by
  unfold runGetSigmaP
  show (getSigmaP quadACS pf0 dataA none none true).map _ = _
  rw [quadA_none_run]
  rfl

/-- Witness for C9: the same data with different stale attributes produces
the identical fresh result, and the data field is preserved. -/
theorem C9_witness :
    (runGetSigmaP quadACS pf0 stateA0 none none true = Except.ok stateAOut) ∧
    stateAOut.data = stateA0.data ∧
    runGetSigmaP quadACS pf0 stateA1 none none true = Except.ok stateAOut :=
  ⟨runA_state0,
    (C9_pure_frame quadACS pf0 stateA0 none none true stateAOut runA_state0).1,
    (C9_pure_frame quadACS pf0 stateA0 none none true stateAOut runA_state0).2
      stateA1 rfl⟩

/-- Witness for C3 at the `dataA` spline-mode run. -/
theorem C3_witness :
    (getSigmaP quadACS pf0 dataA none none true =
      Except.ok ⟨(10:ℝ)^(50:ℝ), 1/3, 0, 0,
        (10:ℝ)^((296:ℝ)/3), 1/3, (10:ℝ)^((296:ℝ)/3)⟩) ∧
    ((⟨(10:ℝ)^(50:ℝ), 1/3, 0, 0, (10:ℝ)^((296:ℝ)/3), 1/3,
        (10:ℝ)^((296:ℝ)/3)⟩ : SigmaPResult).slopeMP =
      quadACS.der1 (Real.logb 10
        (⟨(10:ℝ)^(50:ℝ), 1/3, 0, 0, (10:ℝ)^((296:ℝ)/3), 1/3,
          (10:ℝ)^((296:ℝ)/3)⟩ : SigmaPResult).sigmaMC) ∧
    (⟨(10:ℝ)^(50:ℝ), 1/3, 0, 0, (10:ℝ)^((296:ℝ)/3), 1/3,
        (10:ℝ)^((296:ℝ)/3)⟩ : SigmaPResult).slopeBisect =
      Real.tan (0.5 * Real.arctan
        (⟨(10:ℝ)^(50:ℝ), 1/3, 0, 0, (10:ℝ)^((296:ℝ)/3), 1/3,
          (10:ℝ)^((296:ℝ)/3)⟩ : SigmaPResult).slopeMP) ∧
    slopeBisectOf (-(4/3)) = -(1/2) ∧
    slopeBisectOf (-(4/3)) ≠ (0 + -(4/3)) / 2) :=
  ⟨quadA_none_run,
    C3_bisector_from_spline quadACS pf0 dataA none none true _ quadA_none_run⟩

/-- Witness for C2 at the `dataA` spline-mode run. -/
theorem C2_witness :
    (getSigmaP quadACS pf0 dataA none none true =
      Except.ok ⟨(10:ℝ)^(50:ℝ), 1/3, 0, 0,
        (10:ℝ)^((296:ℝ)/3), 1/3, (10:ℝ)^((296:ℝ)/3)⟩) ∧
    ((splineSamples dataA).length = 100 ∧
    (∀ i, i < 100 → (splineSamples dataA).getD i 0 =
      (sigmaLogOf dataA).headD 0 + (i:ℝ) *
        (((sigmaLogOf dataA).getLastD 0 - (sigmaLogOf dataA).headD 0) /
          ((100:ℝ) - 1))) ∧
    splineCurvature quadACS dataA = (splineSamples dataA).map
      (fun x => |quadACS.der2 x| / (1 + quadACS.der1 x ^ 2) ^ ((3:ℝ)/2)) ∧
    (∃ i rest, findPeaks (splineCurvature quadACS dataA) 500 = i :: rest ∧
      (⟨(10:ℝ)^(50:ℝ), 1/3, 0, 0, (10:ℝ)^((296:ℝ)/3), 1/3,
        (10:ℝ)^((296:ℝ)/3)⟩ : SigmaPResult).sigmaMC =
        (10:ℝ) ^ ((splineSamples dataA).getD i 0) ∧
      (⟨(10:ℝ)^(50:ℝ), 1/3, 0, 0, (10:ℝ)^((296:ℝ)/3), 1/3,
        (10:ℝ)^((296:ℝ)/3)⟩ : SigmaPResult).eMC =
        quadACS.val ((splineSamples dataA).getD i 0)) ∧
    (findPeaks demoSamples 500).head? = some 2 ∧
    argmaxIdx demoSamples = 0) :=
  ⟨quadA_none_run,
    C2_spline_mode_selection quadACS pf0 dataA true _ quadA_none_run⟩

/-! ### A plateau run: parabola with vertex midway between two samples

`q(x) = (x - 99/2)² + 3/4` over the log10-stress domain `[0, 99]`: the
spline knots of `dataB` are `x = 0, 1, 99` with `q(0) = 2451`,
`q(1) = 2353`, `q(99) = 2451` — three points on the parabola, so the
not-a-knot spline is the parabola.  The curvature is symmetric about
`x = 49.5`, exactly midway between samples 49 and 50, giving a two-sample
plateau at the top. -/

noncomputable def quadBCS : CubicSplineFn :=
  ⟨fun x => (x - 99/2) ^ 2 + 3/4,
   fun x => 2 * (x - 99/2),
   fun _ => 2⟩

noncomputable def dataB : Data :=
  ⟨[1/2, 1, 10, (10:ℝ)^(99:ℝ)], [2, 2451, 2353, 2451], 1/4, 25, 1⟩

theorem sigmaLogB : sigmaLogOf dataB = [0, 1, 99] := by
  unfold sigmaLogOf dataB
  simp only [List.drop, List.map_cons, List.map_nil]
  rw [Real.logb_one, Real.logb_self_eq_one (by norm_num),
    Real.logb_rpow (by norm_num) (by norm_num)]

theorem samplesB_getD (i : ℕ) (hi : i < 100) :
    (splineSamples dataB).getD i 0 = (i:ℝ) := by
  unfold splineSamples
  rw [sigmaLogB, linspace_getD _ _ _ _ hi]
  show (0:ℝ) + (i:ℝ) * ((99 - 0) / ((100:ℝ) - 1)) = (i:ℝ)
  norm_num

theorem curvB_length : (splineCurvature quadBCS dataB).length = 100 := by
  unfold splineCurvature splineSamples
  rw [List.length_map, linspace_length]

theorem curvB_getD (k : ℕ) (hk : k < 100) :
    (splineCurvature quadBCS dataB).getD k default =
      2 / (1 + 4 * ((k:ℝ) - 99/2) ^ 2) ^ ((3:ℝ)/2) := by
  have hk' : k < (splineCurvature quadBCS dataB).length := by
    rw [curvB_length]; exact hk
  have hsm : k < (splineSamples dataB).length := by
    unfold splineSamples
    rw [linspace_length]
    exact hk
  have hs := samplesB_getD k hk
  rw [List.getD_eq_getElem _ _ hsm] at hs
  rw [List.getD_eq_getElem _ _ hk']
  unfold splineCurvature
  rw [List.getElem_map, hs]
  show |quadBCS.der2 (k:ℝ)| / (1 + quadBCS.der1 (k:ℝ) ^ 2) ^ ((3:ℝ)/2) = _
  unfold quadBCS
  simp only
  rw [abs_of_pos (by norm_num : (0:ℝ) < 2)]
  ring_nf

theorem curvB_localMaxima : localMaxima (splineCurvature quadBCS dataB) = [49] := by
  have hlen := curvB_length
  have key : ∀ u w : ℝ, 0 ≤ 4 * u ^ 2 → 4 * u ^ 2 < 4 * w ^ 2 →
      2 / (1 + 4 * w ^ 2) ^ ((3:ℝ)/2) < 2 / (1 + 4 * u ^ 2) ^ ((3:ℝ)/2) := by
    intro u w h1 h2
    exact curvVal_lt_curvVal 2 _ _ (by norm_num) h1 h2
  have hinc : ∀ i, i + 1 ≤ 49 →
      (splineCurvature quadBCS dataB).getD i default <
        (splineCurvature quadBCS dataB).getD (i + 1) default := by
    intro i hi
    rw [curvB_getD i (by omega), curvB_getD (i + 1) (by omega)]
    have hcast : (i:ℝ) ≤ 48 := by
      have : i ≤ 48 := by omega
      exact_mod_cast this
    apply key
    · positivity
    · push_cast
      nlinarith
  have heq : (splineCurvature quadBCS dataB).getD (49 + 1) default =
      (splineCurvature quadBCS dataB).getD 49 default := by
    rw [curvB_getD 50 (by omega), curvB_getD 49 (by omega)]
    norm_num
  have hfall : (splineCurvature quadBCS dataB).getD (49 + 2) default <
      (splineCurvature quadBCS dataB).getD 49 default := by
    rw [curvB_getD 51 (by omega), curvB_getD 49 (by omega)]
    apply key
    · positivity
    · norm_num
  have hdec : ∀ i, 49 + 2 ≤ i → i + 1 < (splineCurvature quadBCS dataB).length →
      ¬ (splineCurvature quadBCS dataB).getD i default <
        (splineCurvature quadBCS dataB).getD (i + 1) default := by
    intro i hi hilen
    rw [hlen] at hilen
    rw [curvB_getD i (by omega), curvB_getD (i + 1) (by omega)]
    apply not_lt_of_lt
    have hcast : (51:ℝ) ≤ (i:ℝ) := by exact_mod_cast hi
    apply key
    · positivity
    · push_cast
      nlinarith
  unfold localMaxima
  exact lmAux_plateau2 (splineCurvature quadBCS dataB) 49 (by norm_num)
    (by rw [hlen]; norm_num) hinc heq hfall hdec
    (splineCurvature quadBCS dataB).length 1 (le_refl 1) (by norm_num)
    (by rw [hlen]; omega)

theorem findPeaksB : findPeaks (splineCurvature quadBCS dataB) 500 = [49] :=
  findPeaks_of_single_maximum _ _ _ curvB_localMaxima

/-- The claim's notion of a strict interior local maximum of the curvature
sample list. -/
def isStrictLocalMax (l : List ℝ) (m : ℕ) : Prop :=
  0 < m ∧ m + 1 < l.length ∧
    l.getD (m - 1) 0 < l.getD m 0 ∧ l.getD (m + 1) 0 < l.getD m 0

/-- C10 counterexample: on `dataB` (a realizable spline: data on a
parabola whose curvature peak falls midway between samples 49 and 50), the
peak detector returns index 49 and the spline-mode search selects stress
`10^49`; but sample 49 is NOT a strict interior local maximum — the
curvature values at 49 and 50 are equal (scipy reports the midpoint of a
two-sample plateau). -/
theorem C10_counterexample :
    findPeaks (splineCurvature quadBCS dataB) 500 = [49] ∧
    mcSearch quadBCS pf0 dataB none true = Except.ok ((10:ℝ)^(49:ℝ), 1) ∧
    ¬ isStrictLocalMax (splineCurvature quadBCS dataB) 49 := by
  refine ⟨findPeaksB, ?_, ?_⟩
  · unfold mcSearch
    rw [findPeaksB]
    show Except.ok ((10:ℝ) ^ (splineSamples dataB).getD 49 0,
      quadBCS.val ((splineSamples dataB).getD 49 0)) = _
    have h49 : (splineSamples dataB).getD 49 0 = (49:ℝ) := by
      rw [samplesB_getD 49 (by norm_num)]
      norm_num
    rw [h49]
    have hval : quadBCS.val (49:ℝ) = 1 := by
      unfold quadBCS
      norm_num
    rw [hval]
  · intro hstrict
    obtain ⟨_, _, _, h4⟩ := hstrict
    have he : (splineCurvature quadBCS dataB).getD (49 + 1) 0 =
        (splineCurvature quadBCS dataB).getD 49 0 := by
      show (splineCurvature quadBCS dataB).getD (49 + 1) default =
        (splineCurvature quadBCS dataB).getD 49 default
      rw [curvB_getD 50 (by omega), curvB_getD 49 (by omega)]
      norm_num
    rw [he] at h4
    exact lt_irrefl _ h4

theorem headD_map (f : ℝ → ℝ) (l : List ℝ) (hl : l ≠ []) (d d' : ℝ) :
    (l.map f).headD d = f (l.headD d') := by
  cases l with
  | nil => exact absurd rfl hl
  | cons a l => rfl

theorem getLastD_map (f : ℝ → ℝ) :
    ∀ (l : List ℝ), l ≠ [] → ∀ (d d' : ℝ), (l.map f).getLastD d = f (l.getLastD d') := by
  intro l
  induction l with
  | nil => intro h; exact absurd rfl h
  | cons a l ih =>
    intro _ d d'
    cases hl : l with
    | nil => rfl
    | cons b l' =>
      rw [List.map_cons, List.getLastD_cons, List.getLastD_cons]
      rw [← hl]
      exact ih (by rw [hl]; exact List.cons_ne_nil b l') (f a) a

/-- C10 amended: in spline mode, because the minimum inter-peak distance
500 is at least the 100 curvature samples, a successful run selects
exactly one peak index; it is an interior local maximum in the plateau
sense (scipy's midpoint of a flat run whose outer neighbours are strictly
smaller — not necessarily a strict pointwise maximum), its curvature value
is the greatest among all reported local maxima, and the selected MCP
stress lies strictly between the second cleaned data point's stress and
the last cleaned data point's stress. -/
theorem C10_amended_plateau_selection (cs : CubicSplineFn)
    (pf : List ℝ → List ℝ → ℝ × ℝ × ℝ × ℝ × ℝ) (data : Data) (loglog : Bool)
    (r : SigmaPResult)
    (hlen2 : 2 ≤ (data.cleanedStress.drop 1).length)
    (hposh : 0 < (data.cleanedStress.drop 1).headD 0)
    (hmono : (data.cleanedStress.drop 1).headD 0 <
      (data.cleanedStress.drop 1).getLastD 0)
    (h : getSigmaP cs pf data none none loglog = Except.ok r) :
    ∃ i, findPeaks (splineCurvature cs data) 500 = [i] ∧
      i ∈ localMaxima (splineCurvature cs data) ∧
      0 < i ∧ i + 1 < 100 ∧
      (∀ j ∈ localMaxima (splineCurvature cs data),
        (splineCurvature cs data).getD j 0 ≤ (splineCurvature cs data).getD i 0) ∧
      r.sigmaMC = (10:ℝ) ^ ((splineSamples data).getD i 0) ∧
      (data.cleanedStress.drop 1).headD 0 < r.sigmaMC ∧
      r.sigmaMC < (data.cleanedStress.drop 1).getLastD 0 := by
  have hcl : (splineCurvature cs data).length = 100 := by
    unfold splineCurvature splineSamples
    rw [List.length_map, linspace_length]
  -- the distance filter keeps at most one peak; success means exactly one
  obtain ⟨mc, hmc, hr⟩ := except_map_ok _ _ _ h
  unfold mcSearch at hmc
  rcases findPeaks_max_distance (splineCurvature cs data) 500
      (by rw [hcl]; norm_num) with hnil | ⟨i, hfp, hmem, hmax⟩
  · rw [hnil] at hmc
    exact absurd hmc (by simp)
  rw [hfp] at hmc
  have hmceq : mc = ((10:ℝ) ^ ((splineSamples data).getD i 0),
      cs.val ((splineSamples data).getD i 0)) := by
    injection hmc with h'
    exact h'.symm
  have hintr := localMaxima_interior _ _ hmem
  rw [hcl] at hintr
  have hsigma : r.sigmaMC = (10:ℝ) ^ ((splineSamples data).getD i 0) := by
    rw [← hr, hmceq]
    rfl
  -- the sample abscissa is strictly inside the log-domain
  have hne : data.cleanedStress.drop 1 ≠ [] := by
    intro hcon
    rw [hcon] at hlen2
    simp at hlen2
  have hha : (sigmaLogOf data).headD 0 =
      Real.logb 10 ((data.cleanedStress.drop 1).headD 0) := by
    unfold sigmaLogOf
    exact headD_map _ _ hne 0 0
  have hhb : (sigmaLogOf data).getLastD 0 =
      Real.logb 10 ((data.cleanedStress.drop 1).getLastD 0) := by
    unfold sigmaLogOf
    exact getLastD_map _ _ hne 0 0
  have hposl : 0 < (data.cleanedStress.drop 1).getLastD 0 := lt_trans hposh hmono
  have hab : (sigmaLogOf data).headD 0 < (sigmaLogOf data).getLastD 0 := by
    rw [hha, hhb]
    exact Real.logb_lt_logb (by norm_num) hposh hmono
  have hs_lo : (sigmaLogOf data).headD 0 < (splineSamples data).getD i 0 := by
    unfold splineSamples
    rw [linspace_getD _ _ _ _ (by omega)]
    have hi1 : (1:ℝ) ≤ (i:ℝ) := by exact_mod_cast hintr.1
    nlinarith [hab]
  have hs_hi : (splineSamples data).getD i 0 < (sigmaLogOf data).getLastD 0 := by
    unfold splineSamples
    rw [linspace_getD _ _ _ _ (by omega)]
    have hi98 : (i:ℝ) ≤ 98 := by
      have : i ≤ 98 := by omega
      exact_mod_cast this
    nlinarith [hab]
  refine ⟨i, hfp, hmem, hintr.1, by omega, hmax, hsigma, ?_, ?_⟩
  · rw [hsigma]
    calc (data.cleanedStress.drop 1).headD 0
        = (10:ℝ) ^ ((sigmaLogOf data).headD 0) := by
          rw [hha, Real.rpow_logb (by norm_num) (by norm_num) hposh]
      _ < (10:ℝ) ^ ((splineSamples data).getD i 0) :=
          (Real.rpow_lt_rpow_left_iff (by norm_num)).mpr hs_lo
  · rw [hsigma]
    calc (10:ℝ) ^ ((splineSamples data).getD i 0)
        < (10:ℝ) ^ ((sigmaLogOf data).getLastD 0) :=
          (Real.rpow_lt_rpow_left_iff (by norm_num)).mpr hs_hi
      _ = (data.cleanedStress.drop 1).getLastD 0 := by
          rw [hhb, Real.rpow_logb (by norm_num) (by norm_num) hposl]

/-- Witness for the amended C10 at the `dataA` spline-mode run. -/
theorem C10_witness :
    ((2 ≤ (dataA.cleanedStress.drop 1).length ∧
      0 < (dataA.cleanedStress.drop 1).headD 0 ∧
      (dataA.cleanedStress.drop 1).headD 0 < (dataA.cleanedStress.drop 1).getLastD 0) ∧
    (getSigmaP quadACS pf0 dataA none none true =
      Except.ok ⟨(10:ℝ)^(50:ℝ), 1/3, 0, 0,
        (10:ℝ)^((296:ℝ)/3), 1/3, (10:ℝ)^((296:ℝ)/3)⟩) ∧
    (∃ i, findPeaks (splineCurvature quadACS dataA) 500 = [i] ∧
      i ∈ localMaxima (splineCurvature quadACS dataA) ∧
      0 < i ∧ i + 1 < 100 ∧
      (∀ j ∈ localMaxima (splineCurvature quadACS dataA),
        (splineCurvature quadACS dataA).getD j 0 ≤
          (splineCurvature quadACS dataA).getD i 0) ∧
      (⟨(10:ℝ)^(50:ℝ), 1/3, 0, 0, (10:ℝ)^((296:ℝ)/3), 1/3,
        (10:ℝ)^((296:ℝ)/3)⟩ : SigmaPResult).sigmaMC =
        (10:ℝ) ^ ((splineSamples dataA).getD i 0) ∧
      (dataA.cleanedStress.drop 1).headD 0 <
        (⟨(10:ℝ)^(50:ℝ), 1/3, 0, 0, (10:ℝ)^((296:ℝ)/3), 1/3,
          (10:ℝ)^((296:ℝ)/3)⟩ : SigmaPResult).sigmaMC ∧
      (⟨(10:ℝ)^(50:ℝ), 1/3, 0, 0, (10:ℝ)^((296:ℝ)/3), 1/3,
        (10:ℝ)^((296:ℝ)/3)⟩ : SigmaPResult).sigmaMC <
        (dataA.cleanedStress.drop 1).getLastD 0)) := by
  have h1 : 2 ≤ (dataA.cleanedStress.drop 1).length := by
    show (2:ℕ) ≤ 3
    norm_num
  have h2 : 0 < (dataA.cleanedStress.drop 1).headD 0 := by
    show (0:ℝ) < 1
    norm_num
  have h3 : (dataA.cleanedStress.drop 1).headD 0 <
      (dataA.cleanedStress.drop 1).getLastD 0 := by
    show (1:ℝ) < (10:ℝ)^(99:ℝ)
    exact (Real.one_lt_rpow_iff_of_pos (by norm_num)).mpr
      (Or.inl ⟨by norm_num, by norm_num⟩)
  exact ⟨⟨h1, h2, h3⟩, quadA_none_run,
    C10_amended_plateau_selection quadACS pf0 dataA true _ h1 h2 h3 quadA_none_run⟩

/-! ### Polynomial-mode abbreviations (the let-bindings of `mcSearch`) -/

/-- The five polynomial coefficients returned by the `polyfit` oracle on
the transformed sub-range (line 133). -/
noncomputable def fopCoeffs (pf : List ℝ → List ℝ → ℝ × ℝ × ℝ × ℝ × ℝ)
    (data : Data) (lo hi : ℝ) (loglog : Bool) : ℝ × ℝ × ℝ × ℝ × ℝ :=
  pf ((fopStress data lo hi).map (transform loglog)) (fopE data lo hi)

/-- `x4FOPlog = transform(x4FOP)` (line 137). -/
noncomputable def polyLogSamples (data : Data) (lo hi : ℝ) (loglog : Bool) : List ℝ :=
  (polySamples data lo hi).map (transform loglog)

/-- The polynomial-mode curvature samples for the fitted coefficients
(lines 141-143). -/
noncomputable def fopCurvature (pf : List ℝ → List ℝ → ℝ × ℝ × ℝ × ℝ × ℝ)
    (data : Data) (lo hi : ℝ) (loglog : Bool) : List ℝ :=
  polyCurvature (fopCoeffs pf data lo hi loglog).2.1
    (fopCoeffs pf data lo hi loglog).2.2.1
    (fopCoeffs pf data lo hi loglog).2.2.2.1
    (fopCoeffs pf data lo hi loglog).2.2.2.2
    (polyLogSamples data lo hi loglog)

theorem mcSearch_poly (cs : CubicSplineFn)
    (pf : List ℝ → List ℝ → ℝ × ℝ × ℝ × ℝ × ℝ) (data : Data)
    (lo hi : ℝ) (loglog : Bool) :
    mcSearch cs pf data (some (lo, hi)) loglog =
      if (fopStress data lo hi).isEmpty then Except.error PyError.indexError
      else Except.ok
        (transformRev loglog ((polyLogSamples data lo hi loglog).getD
          (argmaxIdx (fopCurvature pf data lo hi loglog)) 0),
         polyval4 (fopCoeffs pf data lo hi loglog).1
           (fopCoeffs pf data lo hi loglog).2.1
           (fopCoeffs pf data lo hi loglog).2.2.1
           (fopCoeffs pf data lo hi loglog).2.2.2.1
           (fopCoeffs pf data lo hi loglog).2.2.2.2
           ((polyLogSamples data lo hi loglog).getD
             (argmaxIdx (fopCurvature pf data lo hi loglog)) 0)) := rfl

/-- C7: in polynomial mode, the stresses of the selected sub-range are
transformed by `log10(log10(.))` when the double-log option is on and by
`log10(.)` otherwise; a degree-4 polynomial of void ratio versus
transformed stress is fitted (coefficients from the external least-squares
oracle); the MCP is the GLOBAL argmax of the curvature over the 1000
samples (no peak-separation constraint — `np.argmax`, not `find_peaks`);
and the MCP stress is recovered by inverting the transform
(`transformRev` inverts `transform` on the relevant domain). -/
theorem C7_polynomial_mode (cs : CubicSplineFn)
    (pf : List ℝ → List ℝ → ℝ × ℝ × ℝ × ℝ × ℝ) (data : Data)
    (lo hi : ℝ) (loglog : Bool) (r : SigmaPResult)
    (h : getSigmaP cs pf data none (some (lo, hi)) loglog = Except.ok r) :
    (∀ x : ℝ, transform true x = Real.logb 10 (Real.logb 10 x)) ∧
    (∀ x : ℝ, transform false x = Real.logb 10 x) ∧
    (∀ x : ℝ, 1 < x → transformRev loglog (transform loglog x) = x) ∧
    (polySamples data lo hi).length = 1000 ∧
    polyLogSamples data lo hi loglog = (polySamples data lo hi).map (transform loglog) ∧
    fopCurvature pf data lo hi loglog = polyCurvature
      (fopCoeffs pf data lo hi loglog).2.1 (fopCoeffs pf data lo hi loglog).2.2.1
      (fopCoeffs pf data lo hi loglog).2.2.2.1 (fopCoeffs pf data lo hi loglog).2.2.2.2
      (polyLogSamples data lo hi loglog) ∧
    r.sigmaMC = transformRev loglog ((polyLogSamples data lo hi loglog).getD
      (argmaxIdx (fopCurvature pf data lo hi loglog)) 0) ∧
    r.eMC = polyval4 (fopCoeffs pf data lo hi loglog).1
      (fopCoeffs pf data lo hi loglog).2.1
      (fopCoeffs pf data lo hi loglog).2.2.1
      (fopCoeffs pf data lo hi loglog).2.2.2.1
      (fopCoeffs pf data lo hi loglog).2.2.2.2
      ((polyLogSamples data lo hi loglog).getD
        (argmaxIdx (fopCurvature pf data lo hi loglog)) 0) ∧
    (∀ j, j < (fopCurvature pf data lo hi loglog).length →
      (fopCurvature pf data lo hi loglog).getD j 0 ≤
        (fopCurvature pf data lo hi loglog).getD
          (argmaxIdx (fopCurvature pf data lo hi loglog)) 0) := by
  obtain ⟨mc, hmc, hr⟩ := except_map_ok _ _ _ h
  rw [mcSearch_poly] at hmc
  by_cases hE : (fopStress data lo hi).isEmpty
  · rw [if_pos hE] at hmc
    exact absurd hmc (by simp)
  · rw [if_neg hE] at hmc
    injection hmc with hmc'
    refine ⟨fun x => rfl, fun x => rfl, ?_, linspace_length _ _ _, rfl, rfl, ?_, ?_, ?_⟩
    · intro x hx
      cases loglog with
      | false =>
        show (10:ℝ) ^ (Real.logb 10 x) = x
        exact Real.rpow_logb (by norm_num) (by norm_num) (by linarith)
      | true =>
        show (10:ℝ) ^ ((10:ℝ) ^ (Real.logb 10 (Real.logb 10 x))) = x
        rw [Real.rpow_logb (by norm_num) (by norm_num)
          (Real.logb_pos (by norm_num) hx)]
        exact Real.rpow_logb (by norm_num) (by norm_num) (by linarith)
    · rw [← hr, ← hmc']
      rfl
    · rw [← hr, ← hmc']
      rfl
    · intro j hj
      exact argmaxIdx_le_spec _ j hj

/-! ### A concrete polynomial-mode run

`dataP` has constant void ratio 2 on stresses `1/2, 1, 10, 100, 1000,
10000` (so the spline the source builds is the constant function, modelled
by `csConstP`), and the polynomial oracle `pfLin` returns the identity
polynomial `p(t) = t`, whose curvature is identically zero. -/

noncomputable def csConstP : CubicSplineFn := ⟨fun _ => 2, fun _ => 0, fun _ => 0⟩

noncomputable def dataP : Data :=
  ⟨[1/2, 1, 10, 100, 1000, 10000], [2, 2, 2, 2, 2, 2], 1, -1, 1⟩

def pfLin : List ℝ → List ℝ → ℝ × ℝ × ℝ × ℝ × ℝ := fun _ _ => (0, 1, 0, 0, 0)

theorem fsiP_lo : findStressIdx dataP.cleanedStress 1 = 1 := by
  show findStressIdx [1/2, 1, 10, 100, 1000, 10000] 1 = 1
  unfold findStressIdx
  rw [List.findIdx_cons, List.findIdx_cons]
  rw [decide_eq_false (by norm_num : ¬((1:ℝ) ≤ 1/2))]
  rw [decide_eq_true (by norm_num : ((1:ℝ) ≤ 1))]
  rfl

theorem fsiP_hi : findStressIdx dataP.cleanedStress 10000 = 5 := by
  show findStressIdx [1/2, 1, 10, 100, 1000, 10000] 10000 = 5
  unfold findStressIdx
  simp only [List.findIdx_cons]
  rw [decide_eq_false (by norm_num : ¬((10000:ℝ) ≤ 1/2)),
    decide_eq_false (by norm_num : ¬((10000:ℝ) ≤ 1)),
    decide_eq_false (by norm_num : ¬((10000:ℝ) ≤ 10)),
    decide_eq_false (by norm_num : ¬((10000:ℝ) ≤ 100)),
    decide_eq_false (by norm_num : ¬((10000:ℝ) ≤ 1000)),
    decide_eq_true (by norm_num : ((10000:ℝ) ≤ 10000))]
  rfl

theorem fopStressP : fopStress dataP 1 10000 = [1, 10, 100, 1000] := by
  unfold fopStress
  rw [fsiP_lo, fsiP_hi]
  rfl

theorem curvP_all_zero :
    ∀ y ∈ fopCurvature pfLin dataP 1 10000 false, y = 0 := by
  intro y hy
  unfold fopCurvature polyCurvature at hy
  obtain ⟨t, _, ht⟩ := List.mem_map.mp hy
  rw [← ht]
  show |2*(0:ℝ) + 6*0*t + 12*0*t^2| / _ = 0
  rw [show 2*(0:ℝ) + 6*0*t + 12*0*t^2 = 0 by ring, abs_zero, zero_div]

theorem argmaxP : argmaxIdx (fopCurvature pfLin dataP 1 10000 false) = 0 :=
  argmaxIdx_const _ 0 curvP_all_zero

theorem polyLogSamplesP_getD0 :
    (polyLogSamples dataP 1 10000 false).getD 0 0 = 0 := by
  unfold polyLogSamples
  have hlen : (polySamples dataP 1 10000).length = 1000 := linspace_length _ _ _
  have h0 : (polySamples dataP 1 10000).getD 0 0 = 1 := by
    unfold polySamples
    rw [fopStressP, linspace_getD _ _ _ _ (by norm_num)]
    show (1:ℝ) + (0:ℕ) * ((1000 - 1) / ((1000:ℝ) - 1)) = 1
    norm_num
  rw [List.getD_eq_getElem _ _ (by rw [hlen]; norm_num)] at h0
  rw [List.getD_eq_getElem _ _ (by rw [List.length_map, hlen]; norm_num)]
  rw [List.getElem_map, h0]
  show Real.logb 10 1 = 0
  exact Real.logb_one

theorem mcSearchP :
    mcSearch csConstP pfLin dataP (some (1, 10000)) false = Except.ok (1, 0) := by
  rw [mcSearch_poly]
  have hne : ¬ (fopStress dataP 1 10000).isEmpty = true := by
    rw [fopStressP]
    simp
  rw [if_neg hne, argmaxP, polyLogSamplesP_getD0]
  have h1 : transformRev false 0 = 1 := by
    show (10:ℝ) ^ (0:ℝ) = 1
    exact Real.rpow_zero 10
  have h2 : polyval4 (fopCoeffs pfLin dataP 1 10000 false).1
      (fopCoeffs pfLin dataP 1 10000 false).2.1
      (fopCoeffs pfLin dataP 1 10000 false).2.2.1
      (fopCoeffs pfLin dataP 1 10000 false).2.2.2.1
      (fopCoeffs pfLin dataP 1 10000 false).2.2.2.2 0 = 0 := by
    show polyval4 0 1 0 0 0 0 = 0
    unfold polyval4
    norm_num
  rw [h1, h2]

theorem polyP_run :
    getSigmaP csConstP pfLin dataP none (some (1, 10000)) false =
      Except.ok ⟨1, 0, 0, 0, (10:ℝ)^(-(1:ℝ)), 0, (10:ℝ)^(-(1:ℝ))⟩ := by
  unfold getSigmaP
  rw [mcSearchP]
  show Except.ok (buildResult csConstP dataP none (1, 0)) = _
  rw [buildResult_none_eq]
  have hlog : Real.logb 10 (1:ℝ) = 0 := Real.logb_one
  have hder : csConstP.der1 (Real.logb 10 (1:ℝ)) = 0 := rfl
  have hbis : slopeBisectOf (csConstP.der1 (Real.logb 10 (1:ℝ))) = 0 := by
    rw [hder, slopeBisectOf_zero]
  have hE : ((0:ℝ) - 0 * Real.logb 10 (1:ℝ) - dataP.idxCcInt) /
      (-dataP.idxCc - 0) = -1 := by
    show ((0:ℝ) - 0 * Real.logb 10 (1:ℝ) - (-1)) / (-(1:ℝ) - 0) = -1
    rw [zero_mul]
    norm_num
  have hsolver : intersectionSolver (Real.logb 10 (1:ℝ)) 0 0
      dataP.idxCc dataP.idxCcInt dataP.sigmaV =
      ((10:ℝ)^(-(1:ℝ)), 0, (10:ℝ)^(-(1:ℝ))) := by
    unfold intersectionSolver
    rw [hE]
    show ((10:ℝ)^(-(1:ℝ)),
      0 * (Real.logb 10 ((10:ℝ)^(-(1:ℝ))) - Real.logb 10 (1:ℝ)) + 0,
      (10:ℝ)^(-(1:ℝ)) / dataP.sigmaV) = _
    rw [zero_mul, zero_add]
    show ((10:ℝ)^(-(1:ℝ)), (0:ℝ), (10:ℝ)^(-(1:ℝ)) / (1:ℝ)) = _
    rw [div_one]
  rw [hbis, hsolver, hder]

/-- Witness for C7 at the concrete polynomial-mode run. -/
theorem C7_witness :
    (getSigmaP csConstP pfLin dataP none (some (1, 10000)) false =
      Except.ok ⟨1, 0, 0, 0, (10:ℝ)^(-(1:ℝ)), 0, (10:ℝ)^(-(1:ℝ))⟩) ∧
    ((∀ x : ℝ, transform true x = Real.logb 10 (Real.logb 10 x)) ∧
    (∀ x : ℝ, transform false x = Real.logb 10 x) ∧
    (∀ x : ℝ, 1 < x → transformRev false (transform false x) = x) ∧
    (polySamples dataP 1 10000).length = 1000 ∧
    polyLogSamples dataP 1 10000 false =
      (polySamples dataP 1 10000).map (transform false) ∧
    fopCurvature pfLin dataP 1 10000 false = polyCurvature
      (fopCoeffs pfLin dataP 1 10000 false).2.1
      (fopCoeffs pfLin dataP 1 10000 false).2.2.1
      (fopCoeffs pfLin dataP 1 10000 false).2.2.2.1
      (fopCoeffs pfLin dataP 1 10000 false).2.2.2.2
      (polyLogSamples dataP 1 10000 false) ∧
    (⟨1, 0, 0, 0, (10:ℝ)^(-(1:ℝ)), 0, (10:ℝ)^(-(1:ℝ))⟩ : SigmaPResult).sigmaMC =
      transformRev false ((polyLogSamples dataP 1 10000 false).getD
        (argmaxIdx (fopCurvature pfLin dataP 1 10000 false)) 0) ∧
    (⟨1, 0, 0, 0, (10:ℝ)^(-(1:ℝ)), 0, (10:ℝ)^(-(1:ℝ))⟩ : SigmaPResult).eMC =
      polyval4 (fopCoeffs pfLin dataP 1 10000 false).1
        (fopCoeffs pfLin dataP 1 10000 false).2.1
        (fopCoeffs pfLin dataP 1 10000 false).2.2.1
        (fopCoeffs pfLin dataP 1 10000 false).2.2.2.1
        (fopCoeffs pfLin dataP 1 10000 false).2.2.2.2
        ((polyLogSamples dataP 1 10000 false).getD
          (argmaxIdx (fopCurvature pfLin dataP 1 10000 false)) 0) ∧
    (∀ j, j < (fopCurvature pfLin dataP 1 10000 false).length →
      (fopCurvature pfLin dataP 1 10000 false).getD j 0 ≤
        (fopCurvature pfLin dataP 1 10000 false).getD
          (argmaxIdx (fopCurvature pfLin dataP 1 10000 false)) 0)) :=
  ⟨polyP_run,
    C7_polynomial_mode csConstP pfLin dataP 1 10000 false _ polyP_run⟩

end PySigmaP
